import Mathlib

/-!
Verification of the uniasset ImageAsset core
(src/Native/src/uniasset/image/ImageAsset.cpp) against its
natural-language specification.

Pixel buffers are shallowly embedded as a size together with a total byte
function; machine integers are `Int`/`Nat` with the int-to-size_t and
int-to-uint32_t conversions made explicit where they matter.  The C float
arithmetic used by `ScaleImage` is embedded as correctly rounded binary32
arithmetic (round to nearest, ties to even, unbounded exponent; the values
arising in the program stay far away from overflow and underflow, where
this model coincides with IEEE-754 binary32).
-/

set_option autoImplicit false
set_option maxRecDepth 10000

/-! ### Byte stores and loop helpers -/

/-- A single byte store update, modelling `p[k] = v`. -/
def upd (f : Nat → Nat) (k v : Nat) : Nat → Nat :=
  fun j => if j = k then v else f j

/-- Bulk copy, modelling `memcpy(dst + dOff, src + sOff, len)` on byte stores. -/
def splice (dst : Nat → Nat) (dOff : Nat) (src : Nat → Nat) (sOff len : Nat) :
    Nat → Nat :=
  fun j => if dOff ≤ j ∧ j < dOff + len then src (sOff + (j - dOff)) else dst j

/-- Ascending counted loop `for (k = 0; k < n; k++) d = B d k`. -/
def foldRange (n : Nat) (B : (Nat → Nat) → Nat → (Nat → Nat)) (d : Nat → Nat) :
    Nat → Nat :=
  (List.range n).foldl B d

theorem foldRange_zero (B : (Nat → Nat) → Nat → (Nat → Nat)) (d : Nat → Nat) :
    foldRange 0 B d = d := rfl

theorem foldRange_succ (n : Nat) (B : (Nat → Nat) → Nat → (Nat → Nat))
    (d : Nat → Nat) : foldRange (n + 1) B d = B (foldRange n B d) n := by
  simp [foldRange, List.range_succ]

theorem foldRange_congr {n : Nat} {B B' : (Nat → Nat) → Nat → (Nat → Nat)}
    (d : Nat → Nat) (h : ∀ g k, k < n → B g k = B' g k) :
    foldRange n B d = foldRange n B' d := by
  induction n with
  | zero => rfl
  | succ n ih =>
    rw [foldRange_succ, foldRange_succ, ih fun g k hk => h g k (Nat.lt_succ_of_lt hk),
      h _ n (Nat.lt_succ_self n)]

/-- Reading a location that no loop iteration writes returns the initial store. -/
theorem foldRange_read_frame {n : Nat} {B : (Nat → Nat) → Nat → (Nat → Nat)}
    {d : Nat → Nat} {j : Nat} (h : ∀ g m, m < n → B g m j = g j) :
    foldRange n B d j = d j := by
  induction n with
  | zero => rfl
  | succ n ih =>
    rw [foldRange_succ, h _ n (Nat.lt_succ_self n),
      ih fun g m hm => h g m (Nat.lt_succ_of_lt hm)]

/-- Reading a location written by exactly one loop iteration returns the written
value, provided that value does not depend on the accumulated store. -/
theorem foldRange_read_hit {n : Nat} {B : (Nat → Nat) → Nat → (Nat → Nat)}
    {d : Nat → Nat} {j k v : Nat} (hk : k < n)
    (hwrite : ∀ g, B g k j = v)
    (hframe : ∀ g m, m < n → m ≠ k → B g m j = g j) :
    foldRange n B d j = v := by
  induction n with
  | zero => exact absurd hk (Nat.not_lt_zero k)
  | succ n ih =>
    rw [foldRange_succ]
    rcases Nat.lt_succ_iff_lt_or_eq.mp hk with hlt | rfl
    · rw [hframe _ n (Nat.lt_succ_self n) (by omega)]
      exact ih hlt (fun g m hm hne => hframe g m (Nat.lt_succ_of_lt hm) hne)
    · exact hwrite _

/-! ### Binary32 floating point model

Nonnegative binary32 values are represented as a natural mantissa `m`
together with an integer exponent `e`, denoting the real number `m * 2 ^ e`.
`roundQ num den sh` correctly rounds `(num / den) * 2 ^ sh` to 24 bits of
precision with ties to even.  All values produced by the image-scaling code
are nonnegative, so the sign is omitted. -/

/-- Fuel-driven floor of the base-two logarithm; `ilog2Go f n` equals
`Nat.log 2 n` for `0 < n < 2 ^ f`. -/
def ilog2Go : Nat → Nat → Nat
  | 0, _ => 0
  | f + 1, n => if n ≤ 1 then 0 else ilog2Go f (n / 2) + 1

/-- Floor of the base-two logarithm of a natural number (64 bits of fuel). -/
def ilog2 (n : Nat) : Nat := ilog2Go 64 n

/-- Floor of the base-two logarithm of the positive rational `num / den`. -/
def ilog2Q (num den : Nat) : Int :=
  let n := ilog2 num
  let d := ilog2 den
  if den * 2 ^ n ≤ num * 2 ^ d then (n : Int) - d else (n : Int) - d - 1

/-- A nonnegative binary32 value: the rational number `m * 2 ^ e`. -/
structure F32 where
  m : Nat
  e : Int
  deriving DecidableEq, Repr

/-- Round `(num / den) * 2 ^ sh` to a 24-bit mantissa, nearest, ties to even. -/
def roundQ (num den : Nat) (sh : Int) : F32 :=
  if num = 0 ∨ den = 0 then ⟨0, 0⟩
  else
    let l : Int := ilog2Q num den
    let e : Int := l - 23
    let a : Nat := if 0 ≤ e then num else num * 2 ^ (-e).toNat
    let b : Nat := if 0 ≤ e then den * 2 ^ e.toNat else den
    let q : Nat := a / b
    let r : Nat := a % b
    let m : Nat :=
      if b < 2 * r then q + 1
      else if 2 * r < b then q
      else if q % 2 = 0 then q else q + 1
    ⟨m, e + sh⟩

/-- Conversion of a nonnegative integer to binary32 (rounding as needed). -/
def natToF32 (n : Nat) : F32 := roundQ n 1 0

/-- Binary32 multiplication (correctly rounded). -/
def F32.mul (x y : F32) : F32 := roundQ (x.m * y.m) 1 (x.e + y.e)

/-- Binary32 division (correctly rounded); division by zero yields zero,
a placeholder that the embedded code never observes. -/
def F32.div (x y : F32) : F32 :=
  if y.m = 0 then ⟨0, 0⟩ else roundQ x.m y.m (x.e - y.e)

/-- Truncation toward zero of a nonnegative binary32 value, modelling the
C cast `(int)` applied to a nonnegative float. -/
def F32.truncNat (x : F32) : Nat :=
  if 0 ≤ x.e then x.m * 2 ^ x.e.toNat else x.m / 2 ^ (-x.e).toNat

/-- The nearest-neighbor source index computed by `ScaleImage` for
destination index `i`: the C expression `(int)(i * ((float)s / (float)d))`
evaluated in binary32 arithmetic. -/
def nnIdx (i s d : Nat) : Nat :=
  F32.truncNat (F32.mul (natToF32 i) (F32.div (natToF32 s) (natToF32 d)))

/-- Real value of an `F32`, used in the rounding-error analysis. -/
def F32.val (x : F32) : ℚ := (x.m : ℚ) * (2 : ℚ) ^ x.e

/-! ### Data model: buffers, error channel, asset -/

/-- Origin tag of a pixel buffer, selecting the deallocation routine. -/
inductive BufSource where
  | Self : BufSource
  | Stb : BufSource
  deriving DecidableEq, Repr

/-- An allocated pixel block: its byte length and its byte contents. -/
structure PixBuf where
  size : Nat
  byte : Nat → Nat

/-- The `ImageAsset::Buffer` pair: an optional pixel block (`none` models a
null `buffer` pointer) together with its origin tag. -/
structure CBuffer where
  buf : Option PixBuf
  source : BufSource

/-- One event on the error channel, used to state the call-discipline claims. -/
inductive ErrEvent where
  | clear : ErrEvent
  | set : String → ErrEvent
  deriving DecidableEq

/-- Modelled from the spec: the single-slot error holder (the ErrorHandler of
common/Utils.hpp, which is not under src/).  `msg` is the stored message
(empty when cleared); `log` records every clear and set performed on the
channel, so that the per-call discipline can be stated. -/
structure ErrorHandler where
  msg : String
  log : List ErrEvent

/-- Modelled from the spec: clearing the single-slot error holder. -/
def ErrorHandler.Clear (e : ErrorHandler) : ErrorHandler :=
  ⟨"", e.log ++ [ErrEvent.clear]⟩

/-- Modelled from the spec: storing a message in the single-slot error holder. -/
def ErrorHandler.SetError (e : ErrorHandler) (m : String) : ErrorHandler :=
  ⟨m, e.log ++ [ErrEvent.set m]⟩

/-- Modelled from the spec: querying the single-slot error holder. -/
def ErrorHandler.GetError (e : ErrorHandler) : String := e.msg

/-- The `Uniasset::ImageAsset` state: one pixel buffer, the metadata triple,
and the error channel. -/
structure ImageAsset where
  buffer_ : CBuffer
  width_ : Int
  height_ : Int
  channelCount_ : Int
  errorHandler_ : ErrorHandler

def ERROR_STR_IMAGE_NOT_LOADED : String := "image asset is not loaded"

def ERROR_STR_IMAGE_SIZE_OVERFLOW : String := "range exceeds image size"

/-- Conversion of a C int value to `size_t` (sign extension, two complement). -/
def sizeT (i : Int) : Nat := (i.emod (2 ^ 64)).toNat

/-- Conversion of a C int value to `uint32_t`. -/
def u32 (i : Int) : Nat := (i.emod (2 ^ 32)).toNat

/-- Shorthand for `errorHandler_.Clear()` at the start of an operation. -/
def ImageAsset.clearErr (a : ImageAsset) : ImageAsset :=
  { a with errorHandler_ := a.errorHandler_.Clear }

/-- Shorthand for `errorHandler_.SetError(m)` followed by returning. -/
def ImageAsset.setErr (a : ImageAsset) (m : String) : ImageAsset :=
  { a with errorHandler_ := a.errorHandler_.SetError m }

/-- `ImageAsset::AllocateBuffer`: a zero size yields a null buffer, otherwise a
self-owned block.  (`new uint8_t[size]` leaves the block uninitialized; the
zero placeholder contents are always overwritten before being read in the
properties proved below.) -/
def ImageAsset.AllocateBuffer (size : Nat) : CBuffer :=
  if size = 0 then ⟨none, BufSource.Self⟩ else ⟨some ⟨size, fun _ => 0⟩, BufSource.Self⟩

/-- `ImageAsset::ReleaseBuffer`: frees the block and nulls the pointer (the
per-origin deallocation dispatch has no observable effect in this model). -/
def ImageAsset.ReleaseBuffer (b : CBuffer) : CBuffer := { b with buf := none }

/-- Byte read from the current pixel buffer of an asset (0 for a null buffer;
the embedded operations never read through a null buffer). -/
def readByte (a : ImageAsset) (j : Nat) : Nat :=
  match a.buffer_.buf with
  | none => 0
  | some f => f.byte j

/-- Byte length of the current pixel buffer (0 for a null buffer). -/
def bufSize (a : ImageAsset) : Nat :=
  match a.buffer_.buf with
  | none => 0
  | some f => f.size

/-! ### Decoder and file-system oracles

The decode libraries (stb_image, libwebp, turbojpeg) and the C file API are
external to the repository; each call is modelled by an oracle record whose
fields give the observable outcome of that call in the run under
consideration. -/

/-- Outcome of a successful `stbi_load` call: the dimension and channel
out-parameters and the decoded (already vertically flipped) bytes. -/
structure StbImage where
  w : Int
  h : Int
  cc : Int
  bytes : Nat → Nat

/-- Oracle for one generic-decoder call. -/
structure StbEnv where
  res : Option StbImage
  failureReason : String

/-- Oracle for one WebP decode: `WebPGetInfo` outcome (dimensions written
through the out-pointers on success), `WebPInitDecoderConfig` outcome,
`WebPGetFeatures` status, `WebPDecode` status, and the decoded bytes (the
negative-stride fill is part of the black box, so `decoded` is already in
top-to-bottom order). -/
structure WebPEnv where
  info : Option (Int × Int)
  initOk : Bool
  featuresStatus : Int
  decodeStatus : Int
  decoded : Nat → Nat

/-- Oracle for one JPEG decode: handle creation, lossless transform, header
probe (dimensions written through the out-pointers on success), and
decompression, with the corresponding turbojpeg error strings. -/
structure JpegEnv where
  initTransformOk : Bool
  errInitTransform : String
  transformOk : Bool
  errTransform : String
  initDecompressOk : Bool
  errInitDecompress : String
  header : Option (Int × Int)
  errHeader : String
  decompressOk : Bool
  errDecompress : String
  decoded : Nat → Nat

/-- Oracle for the C file API calls made by one operation (fopen, fseek to
end, ftell, fseek to begin, fread), plus the file contents. -/
structure FileEnv where
  openOk : Bool
  openErr : String
  seekEndOk : Bool
  size : Nat
  seekSetOk : Bool
  readOk : Bool
  content : Nat → Nat
  errnoStr : String

/-- Modelled from the spec: the ERROR_HANDLER_ERRNO macro of
common/Utils.hpp (not under src/) stores a fixed message annotated with the
system errno description. -/
def errnoMsg (m : String) (env : FileEnv) : String := m ++ ": " ++ env.errnoStr

/-- Modelled from the spec: the Format Sniffer (Utils::IsWebPFileData and
Utils::IsJpegFileData in common/Utils.hpp, not under src/) classifies a byte
prefix as WebP, JPEG, or generic; unmatched input falls through to generic. -/
structure SniffEnv where
  isWebP : Bool
  isJpeg : Bool

/-! ### The operations of ImageAsset.cpp -/

/-- `ImageAsset::Load(pixelData, size, width, height, channelCount)` (raw
pixel ingestion): clear the error channel, release the old buffer, allocate
a fresh self-owned block, copy `size` caller bytes into it, store the
metadata. -/
def ImageAsset.LoadPixels (a : ImageAsset) (pixelData : Nat → Nat) (size : Nat)
    (width height channelCount : Int) : ImageAsset :=
  let a := a.clearErr
  let buf := ImageAsset.AllocateBuffer size
  let buf : CBuffer :=
    { buf with
      buf := buf.buf.map fun nb => { nb with byte := splice nb.byte 0 pixelData 0 size } }
  { a with buffer_ := buf, width_ := width, height_ := height,
           channelCount_ := channelCount }

/-- `ImageAsset::LoadFromFile` (generic decoder from a path): on decoder
failure the error channel receives the stb failure reason and nothing else
changes; on success the out-parameters land in the metadata and the decoded
foreign-owned buffer is installed. -/
def ImageAsset.LoadFromFile (env : StbEnv) (a : ImageAsset) : ImageAsset :=
  let a := a.clearErr
  match env.res with
  | none => a.setErr env.failureReason
  | some img =>
    { a with width_ := img.w, height_ := img.h, channelCount_ := img.cc,
             buffer_ := ⟨some ⟨sizeT (img.w * img.h * img.cc), img.bytes⟩, BufSource.Stb⟩ }

/-- `ImageAsset::LoadFile` (generic decoder from memory); identical control
flow to `LoadFromFile`. -/
def ImageAsset.LoadFile (env : StbEnv) (a : ImageAsset) : ImageAsset :=
  let a := a.clearErr
  match env.res with
  | none => a.setErr env.failureReason
  | some img =>
    { a with width_ := img.w, height_ := img.h, channelCount_ := img.cc,
             buffer_ := ⟨some ⟨sizeT (img.w * img.h * img.cc), img.bytes⟩, BufSource.Stb⟩ }

/-- `ImageAsset::LoadWebP`: info probe (writing `width_`/`height_` through the
out-pointers), forced 4-channel metadata, decoder-config init, feature
probe, decode; the buffer is replaced only after a fully successful decode. -/
def ImageAsset.LoadWebP (env : WebPEnv) (a : ImageAsset) : ImageAsset :=
  let a := a.clearErr
  match env.info with
  | none => a.setErr "Failed to get webp info"
  | some (w, h) =>
    let a := { a with width_ := w, height_ := h }
    let a := { a with channelCount_ := 4 }
    if env.initOk = false then a.setErr "Failed to initialize decoder config"
    else if env.featuresStatus ≠ 0 then
      a.setErr ("Failed to call WebPGetFeatures: " ++ toString env.featuresStatus)
    else if env.decodeStatus ≠ 0 then
      a.setErr ("Failed to call WebPDecode: " ++ toString env.decodeStatus)
    else
      { a with buffer_ := ⟨some ⟨sizeT (w * h * 4), env.decoded⟩, BufSource.Self⟩ }

/-- `ImageAsset::LoadJpeg`: transform-handle creation, lossless vertical
flip, decompress-handle creation, header probe (writing `width_`/`height_`),
forced 3-channel metadata, decompression; the buffer is replaced only after
a fully successful decompression. -/
def ImageAsset.LoadJpeg (env : JpegEnv) (a : ImageAsset) : ImageAsset :=
  let a := a.clearErr
  if env.initTransformOk = false then a.setErr env.errInitTransform
  else if env.transformOk = false then a.setErr env.errTransform
  else if env.initDecompressOk = false then a.setErr env.errInitDecompress
  else
    match env.header with
    | none => a.setErr env.errHeader
    | some (w, h) =>
      let a := { a with width_ := w, height_ := h }
      let a := { a with channelCount_ := 3 }
      if env.decompressOk = false then a.setErr env.errDecompress
      else { a with buffer_ := ⟨some ⟨sizeT (w * h * 3), env.decoded⟩, BufSource.Self⟩ }

/-- `ImageAsset::LoadWebPFromFile`: read the whole file then `LoadWebP`. -/
def ImageAsset.LoadWebPFromFile (fenv : FileEnv) (webp : WebPEnv)
    (a : ImageAsset) : ImageAsset :=
  let a := a.clearErr
  if fenv.openOk = false then a.setErr fenv.openErr
  else if fenv.seekEndOk = false then
    a.setErr (errnoMsg "Failed to load webp (seek to end)" fenv)
  else if fenv.size = 0 then
    a.setErr (errnoMsg "Failed to load webp (empty file)" fenv)
  else if fenv.seekSetOk = false then
    a.setErr (errnoMsg "Failed to load webp (seek to begin)" fenv)
  else if fenv.readOk = false then
    a.setErr (errnoMsg "Failed to load webp (read file)" fenv)
  else ImageAsset.LoadWebP webp a

/-- `ImageAsset::LoadJpegFromFile`: read the whole file then `LoadJpeg`. -/
def ImageAsset.LoadJpegFromFile (fenv : FileEnv) (jpeg : JpegEnv)
    (a : ImageAsset) : ImageAsset :=
  let a := a.clearErr
  if fenv.openOk = false then a.setErr fenv.openErr
  else if fenv.seekEndOk = false then
    a.setErr (errnoMsg "Failed to load jpeg (seek to end)" fenv)
  else if fenv.size = 0 then
    a.setErr (errnoMsg "Failed to load jpeg (empty file)" fenv)
  else if fenv.seekSetOk = false then
    a.setErr (errnoMsg "Failed to load jpeg (seek to begin)" fenv)
  else if fenv.readOk = false then
    a.setErr (errnoMsg "Failed to load jpeg (read file)" fenv)
  else ImageAsset.LoadJpeg jpeg a

/-- `ImageAsset::Load(fileData, size)` (format-sniffed in-memory load). -/
def ImageAsset.LoadBytes (sniff : SniffEnv) (webp : WebPEnv) (jpeg : JpegEnv)
    (stb : StbEnv) (a : ImageAsset) : ImageAsset :=
  let a := a.clearErr
  if sniff.isWebP then ImageAsset.LoadWebP webp a
  else if sniff.isJpeg then ImageAsset.LoadJpeg jpeg a
  else ImageAsset.LoadFile stb a

/-- `ImageAsset::Load(path)` (file load: magic-prefix read, then dispatch to
the per-format file loaders). -/
def ImageAsset.LoadPath (fenv : FileEnv) (sniff : SniffEnv) (webp : WebPEnv)
    (jpeg : JpegEnv) (stb : StbEnv) (a : ImageAsset) : ImageAsset :=
  let a := a.clearErr
  if fenv.openOk = false then a.setErr fenv.openErr
  else if fenv.seekEndOk = false then
    a.setErr (errnoMsg "failed to detect format (seek to end)" fenv)
  else if fenv.size = 0 then
    a.setErr (errnoMsg "failed to detect format (empty file)" fenv)
  else if fenv.seekSetOk = false then
    a.setErr (errnoMsg "failed to detect format (seek to begin)" fenv)
  else if fenv.readOk = false then
    a.setErr (errnoMsg "Failed to detect format (read file)" fenv)
  else if sniff.isWebP then ImageAsset.LoadWebPFromFile fenv webp a
  else if sniff.isJpeg then ImageAsset.LoadJpegFromFile fenv jpeg a
  else ImageAsset.LoadFromFile stb a

/-- `ImageAsset::GetError`. -/
def ImageAsset.GetError (a : ImageAsset) : String := a.errorHandler_.GetError

/-- `ImageAsset::GetWidth`: -1 and the not-loaded error on a null buffer. -/
def ImageAsset.GetWidth (a : ImageAsset) : ImageAsset × Int :=
  let a := a.clearErr
  match a.buffer_.buf with
  | none => (a.setErr ERROR_STR_IMAGE_NOT_LOADED, -1)
  | some _ => (a, a.width_)

/-- `ImageAsset::GetHeight`. -/
def ImageAsset.GetHeight (a : ImageAsset) : ImageAsset × Int :=
  let a := a.clearErr
  match a.buffer_.buf with
  | none => (a.setErr ERROR_STR_IMAGE_NOT_LOADED, -1)
  | some _ => (a, a.height_)

/-- `ImageAsset::GetChannelCount`. -/
def ImageAsset.GetChannelCount (a : ImageAsset) : ImageAsset × Int :=
  let a := a.clearErr
  match a.buffer_.buf with
  | none => (a.setErr ERROR_STR_IMAGE_NOT_LOADED, -1)
  | some _ => (a, a.channelCount_)

/-- The nearest-neighbor rescale loop of `ScaleImage<PixelSize>`.  The C code
computes `scaleX`/`scaleY` once before the loops; `nnIdx` recomputes the
same pure binary32 value at each pixel.  The `uint32_t` pixel-index
arithmetic is taken modulo `2 ^ 32`. -/
def ScaleImage (ps : Nat) (srcBuffer destBuffer : Nat → Nat)
    (srcWidth srcHeight destWidth destHeight : Nat) : Nat → Nat :=
  foldRange destWidth (fun d ix =>
    foldRange destHeight (fun d iy =>
      let px := nnIdx ix srcWidth destWidth
      let py := nnIdx iy srcHeight destHeight
      let destPixelBegin := (destWidth * iy + ix) % 2 ^ 32
      let srcPixelBegin := (srcWidth * py + px) % 2 ^ 32
      foldRange ps (fun d i =>
        upd d ((destPixelBegin * ps + i) % 2 ^ 32)
          (srcBuffer ((srcPixelBegin * ps + i) % 2 ^ 32))) d) d) destBuffer

/-- `ImageAsset::Clip(x, y, width, height)`: not-loaded check, bottom-left
coordinate conversion, range validation, row-by-row copy into a fresh
buffer, metadata update. -/
def ImageAsset.Clip (a : ImageAsset) (x y width height : Int) : ImageAsset :=
  let a := a.clearErr
  match a.buffer_.buf with
  | none => a.setErr ERROR_STR_IMAGE_NOT_LOADED
  | some src =>
    let srcStrideSize := a.width_ * a.channelCount_
    let newStrideSize := width * a.channelCount_
    let startLine := a.height_ - y - height
    let endLine := a.height_ - y
    let startPixel := x
    let endPixel := x + width
    if startLine < 0 ∨ startLine > a.height_ ∨ endLine < 0 ∨ endLine > a.height_ ∨
        startPixel < 0 ∨ startPixel > a.width_ ∨ endPixel < 0 ∨ endPixel > a.width_ then
      a.setErr ERROR_STR_IMAGE_SIZE_OVERFLOW
    else
      let newBuffer := ImageAsset.AllocateBuffer (sizeT (width * height * a.channelCount_))
      let filled : CBuffer :=
        { newBuffer with
          buf := newBuffer.buf.map fun nb =>
            { nb with
              byte := foldRange height.toNat (fun d iy =>
                splice d (newStrideSize * (iy : Int)).toNat src.byte
                  (srcStrideSize * ((iy : Int) + startLine) + x * a.channelCount_).toNat
                  (sizeT newStrideSize)) nb.byte } }
      { a with buffer_ := filled, width_ := width, height_ := height }

/-- `ImageAsset::Resize(width, height)`: not-loaded check, fresh buffer,
nearest-neighbor scale specialized to 3 or 4 channels (any other channel
count leaves the fresh buffer unwritten), metadata update. -/
def ImageAsset.Resize (a : ImageAsset) (width height : Int) : ImageAsset :=
  let a := a.clearErr
  match a.buffer_.buf with
  | none => a.setErr ERROR_STR_IMAGE_NOT_LOADED
  | some src =>
    let newBuffer := ImageAsset.AllocateBuffer (sizeT (width * height * a.channelCount_))
    let scaled : CBuffer :=
      if a.channelCount_ = 3 then
        { newBuffer with
          buf := newBuffer.buf.map fun nb =>
            { nb with
              byte := ScaleImage 3 src.byte nb.byte (u32 a.width_) (u32 a.height_)
                (u32 width) (u32 height) } }
      else if a.channelCount_ = 4 then
        { newBuffer with
          buf := newBuffer.buf.map fun nb =>
            { nb with
              byte := ScaleImage 4 src.byte nb.byte (u32 a.width_) (u32 a.height_)
                (u32 width) (u32 height) } }
      else newBuffer
    { a with width_ := width, height_ := height, buffer_ := scaled }

/-- `ImageAsset::Unload`: not-loaded check, release, zeroed metadata. -/
def ImageAsset.Unload (a : ImageAsset) : ImageAsset :=
  let a := a.clearErr
  match a.buffer_.buf with
  | none => a.setErr ERROR_STR_IMAGE_NOT_LOADED
  | some _ =>
    { a with buffer_ := ImageAsset.ReleaseBuffer a.buffer_,
             width_ := 0, height_ := 0, channelCount_ := 0 }

/-- `ImageAsset::CopyTo(buffer)`: not-loaded check, then an unchecked copy of
`width_ * height_ * channelCount_` bytes into the caller store. -/
def ImageAsset.CopyTo (a : ImageAsset) (dest : Nat → Nat) :
    ImageAsset × (Nat → Nat) :=
  let a := a.clearErr
  match a.buffer_.buf with
  | none => (a.setErr ERROR_STR_IMAGE_NOT_LOADED, dest)
  | some src =>
    (a, splice dest 0 src.byte 0 (sizeT (a.width_ * a.height_ * a.channelCount_)))

/-- Modelled from the spec: a freshly constructed `ImageAsset` (the default
member initializers live in ImageAsset.hpp, which is not under src/): null
buffer, zero metadata, empty error channel. -/
def ImageAsset.init : ImageAsset := ⟨⟨none, BufSource.Self⟩, 0, 0, 0, ⟨"", []⟩⟩

/-- `ImageAsset::Clone` (a const method): builds a new asset by pushing the
current buffer and metadata through the raw-pixel load path; the source
asset, first component of the result, is untouched (in particular its error
channel is neither cleared nor set). -/
def ImageAsset.Clone (a : ImageAsset) : ImageAsset × ImageAsset :=
  let result := ImageAsset.init.LoadPixels (readByte a)
    (sizeT (a.width_ * a.height_ * a.channelCount_)) a.width_ a.height_ a.channelCount_
  (a, result)

/-! ### Arithmetic helpers -/

theorem toNat_mul_nonneg {a b : Int} (ha : 0 ≤ a) (hb : 0 ≤ b) :
    (a * b).toNat = a.toNat * b.toNat := by
  obtain ⟨m, rfl⟩ := Int.eq_ofNat_of_zero_le ha
  obtain ⟨n, rfl⟩ := Int.eq_ofNat_of_zero_le hb
  rw [← Nat.cast_mul, Int.toNat_natCast, Int.toNat_natCast, Int.toNat_natCast]

theorem sizeT_eq {i : Int} (h0 : 0 ≤ i) (h1 : i < 2 ^ 64) : sizeT i = i.toNat := by
  unfold sizeT
  rw [show i.emod (2 ^ 64) = i % 2 ^ 64 from rfl,
    Int.emod_eq_of_lt h0 (by exact_mod_cast h1)]

theorem u32_eq {i : Int} (h0 : 0 ≤ i) (h1 : i < 2 ^ 32) : u32 i = i.toNat := by
  unfold u32
  rw [show i.emod (2 ^ 32) = i % 2 ^ 32 from rfl,
    Int.emod_eq_of_lt h0 (by exact_mod_cast h1)]

/-- Byte addresses `p * ps + i` with `i < ps` decompose uniquely. -/
theorem base_inj {ps p1 p2 i1 i2 : Nat} (h1 : i1 < ps) (h2 : i2 < ps)
    (h : p1 * ps + i1 = p2 * ps + i2) : p1 = p2 ∧ i1 = i2 := by
  rcases Nat.lt_trichotomy p1 p2 with hlt | heq | hgt
  · exfalso
    have h3 : (p1 + 1) * ps ≤ p2 * ps := mul_le_mul_right' (Nat.succ_le_of_lt hlt) ps
    have h4 : (p1 + 1) * ps = p1 * ps + ps := by ring
    omega
  · subst heq
    exact ⟨rfl, by omega⟩
  · exfalso
    have h3 : (p2 + 1) * ps ≤ p1 * ps := mul_le_mul_right' (Nat.succ_le_of_lt hgt) ps
    have h4 : (p2 + 1) * ps = p2 * ps + ps := by ring
    omega

/-- Reading back a row written by the row-copy loop of `Clip`. -/
theorem rowCopy_read {h L : Nat} (src d0 : Nat → Nat) (sOff : Nat → Nat)
    {iy j : Nat} (hiy : iy < h) (hj : j < L) :
    foldRange h (fun d r => splice d (L * r) src (sOff r) L) d0 (L * iy + j) =
      src (sOff iy + j) := by
  apply foldRange_read_hit hiy
  · intro g
    have hc : L * iy ≤ L * iy + j ∧ L * iy + j < L * iy + L := by omega
    simp only [splice, if_pos hc]
    congr 1
    omega
  · intro g r _ hne
    have hc : ¬(L * r ≤ L * iy + j ∧ L * iy + j < L * r + L) := by
      rcases Nat.lt_or_ge r iy with hlt | hge
      · have h3 : L * (r + 1) ≤ L * iy := mul_le_mul_left' (Nat.succ_le_of_lt hlt) L
        have h4 : L * (r + 1) = L * r + L := by ring
        omega
      · have hgt : iy < r := lt_of_le_of_ne hge (by omega)
        have h3 : L * (iy + 1) ≤ L * r := mul_le_mul_left' (Nat.succ_le_of_lt hgt) L
        have h4 : L * (iy + 1) = L * iy + L := by ring
        omega
    simp only [splice, if_neg hc]

/-! ### Specification of the base-two logarithm helpers -/

theorem ilog2Go_spec : ∀ (f n : Nat), 0 < n → n < 2 ^ f →
    2 ^ ilog2Go f n ≤ n ∧ n < 2 ^ (ilog2Go f n + 1) := by
  intro f
  induction f with
  | zero => intro n h1 h2; simp only [pow_zero] at h2; omega
  | succ f ih =>
    intro n h1 h2
    by_cases hn : n ≤ 1
    · have hone : n = 1 := by omega
      subst hone
      simp [ilog2Go]
    · have hpow : (2 : Nat) ^ (f + 1) = 2 * 2 ^ f := by rw [pow_succ]; ring
      have hrec := ih (n / 2) (by omega) (by omega)
      have hstep : ilog2Go (f + 1) n = ilog2Go f (n / 2) + 1 := by
        simp [ilog2Go, hn]
      rw [hstep]
      set g := ilog2Go f (n / 2) with hg
      have e1 : (2 : Nat) ^ (g + 1) = 2 * 2 ^ g := by rw [pow_succ]; ring
      have e2 : (2 : Nat) ^ (g + 1 + 1) = 2 * 2 ^ (g + 1) := by rw [pow_succ _ (g+1)]; ring
      omega

theorem ilog2_spec {n : Nat} (h1 : 0 < n) (h2 : n < 2 ^ 64) :
    2 ^ ilog2 n ≤ n ∧ n < 2 ^ (ilog2 n + 1) :=
  ilog2Go_spec 64 n h1 h2

theorem ilog2_eq_of {n c : Nat} (h2 : n < 2 ^ 64) (hl : 2 ^ c ≤ n)
    (hu : n < 2 ^ (c + 1)) : ilog2 n = c := by
  have h1 : 0 < n := lt_of_lt_of_le (pow_pos (by norm_num) c) hl
  obtain ⟨hL, hU⟩ := ilog2_spec h1 h2
  rcases Nat.lt_trichotomy (ilog2 n) c with hlt | heq | hgt
  · have : (2 : Nat) ^ (ilog2 n + 1) ≤ 2 ^ c :=
      Nat.pow_le_pow_right (by norm_num) (by omega)
    omega
  · exact heq
  · have : (2 : Nat) ^ (c + 1) ≤ 2 ^ ilog2 n :=
      Nat.pow_le_pow_right (by norm_num) (by omega)
    omega

theorem ilog2_one : ilog2 1 = 0 := by decide

theorem ilog2Q_den_one {n : Nat} (h0 : 0 < n) (h64 : n < 2 ^ 64) :
    ilog2Q n 1 = (ilog2 n : Int) := by
  unfold ilog2Q
  rw [ilog2_one]
  rw [if_pos (by simpa using (ilog2_spec h0 h64).1)]
  simp

theorem ilog2Q_self {m : Nat} : ilog2Q m m = 0 := by
  unfold ilog2Q
  rw [if_pos le_rfl]
  simp

/-- Value of `roundQ` when the scaled quotient is the exact integer `M` and
the exponent is the nonnegative `k`. -/
theorem roundQ_eq_pos (num den : Nat) (sh : Int) (k M : Nat)
    (hnum : num ≠ 0) (hden : 0 < den)
    (hl : ilog2Q num den = 23 + (k : Int))
    (hdiv : num = M * (den * 2 ^ k)) :
    roundQ num den sh = ⟨M, (k : Int) + sh⟩ := by
  simp only [roundQ]
  rw [if_neg (by omega)]
  rw [hl]
  have he : (23 : Int) + (k : Int) - 23 = (k : Int) := by ring
  rw [he]
  have hcond : (0 : Int) ≤ (k : Int) := by omega
  simp only [if_pos hcond]
  rw [Int.toNat_natCast]
  have hbpos : 0 < den * 2 ^ k := by positivity
  rw [hdiv]
  rw [Nat.mul_div_cancel _ hbpos, Nat.mul_mod_left]
  rw [if_neg (by omega), if_pos (by omega)]

/-- Value of `roundQ` when the scaled quotient is the exact integer `M` and
the exponent is the negative `-k`. -/
theorem roundQ_eq_neg (num den : Nat) (sh : Int) (k M : Nat)
    (hnum : num ≠ 0) (hden : 0 < den) (hk : 0 < k)
    (hl : ilog2Q num den = 23 - (k : Int))
    (hdiv : num * 2 ^ k = M * den) :
    roundQ num den sh = ⟨M, -(k : Int) + sh⟩ := by
  simp only [roundQ]
  rw [if_neg (by omega)]
  rw [hl]
  have he : (23 : Int) - (k : Int) - 23 = -(k : Int) := by ring
  rw [he]
  have hcond : ¬ ((0 : Int) ≤ -(k : Int)) := by omega
  simp only [if_neg hcond]
  have htn : (-(-(k : Int))).toNat = k := by omega
  rw [htn]
  rw [hdiv]
  rw [Nat.mul_div_cancel _ hden, Nat.mul_mod_left]
  rw [if_neg (by omega), if_pos (by omega)]

/-- Explicit form of the integer-to-binary32 conversion below `2 ^ 24`
(the conversion is exact there). -/
theorem natToF32_eq_small {n : Nat} (h0 : 0 < n) (h24 : n < 2 ^ 24) :
    natToF32 n = ⟨n * 2 ^ (23 - ilog2 n), (ilog2 n : Int) - 23⟩ := by
  have h64 : n < 2 ^ 64 := lt_trans h24 (by norm_num)
  obtain ⟨hL, hU⟩ := ilog2_spec h0 h64
  have hk24 : ilog2 n ≤ 23 := by
    by_contra hc
    have : (2 : Nat) ^ 24 ≤ 2 ^ ilog2 n :=
      Nat.pow_le_pow_right (by norm_num) (by omega)
    omega
  rcases eq_or_lt_of_le hk24 with h23 | hlt
  · have hres := roundQ_eq_pos n 1 0 0 n (by omega) (by omega)
      (by rw [ilog2Q_den_one h0 h64, h23]; norm_num)
      (by norm_num)
    unfold natToF32
    rw [hres, h23]
    norm_num
  · have hres := roundQ_eq_neg n 1 0 (23 - ilog2 n) (n * 2 ^ (23 - ilog2 n))
      (by omega) (by omega) (by omega)
      (by rw [ilog2Q_den_one h0 h64]; omega)
      (by norm_num)
    unfold natToF32
    rw [hres]
    have : -((23 : Int) - (ilog2 n : Int)) + 0 = (ilog2 n : Int) - 23 := by omega
    congr 1
    omega

theorem natToF32_pow24 : natToF32 (2 ^ 24) = ⟨2 ^ 23, 1⟩ := by decide

/-- Binary32 division of a value by itself is exactly one
(represented as `2 ^ 23 * 2 ^ (-23)`). -/
theorem F32.div_self {x : F32} (hm : 0 < x.m) :
    F32.div x x = ⟨2 ^ 23, -23⟩ := by
  simp only [F32.div]
  rw [if_neg (by omega)]
  have hres := roundQ_eq_neg x.m x.m (x.e - x.e) 23 (2 ^ 23)
    (by omega) hm (by norm_num)
    (by rw [ilog2Q_self]; norm_num)
    (by ring)
  rw [hres]
  congr 1
  omega

/-- Multiplying a normalized binary32 value by one is exact. -/
theorem F32.mul_norm_one {x : F32} (hlo : 2 ^ 23 ≤ x.m) (hhi : x.m < 2 ^ 24) :
    F32.mul x ⟨2 ^ 23, -23⟩ = x := by
  have hnum64 : x.m * 2 ^ 23 < 2 ^ 64 := by
    calc x.m * 2 ^ 23 < 2 ^ 24 * 2 ^ 23 := mul_lt_mul_of_pos_right hhi (by norm_num)
      _ < 2 ^ 64 := by norm_num
  have hilog : ilog2 (x.m * 2 ^ 23) = 46 := by
    apply ilog2_eq_of hnum64
    · calc (2 : Nat) ^ 46 = 2 ^ 23 * 2 ^ 23 := by norm_num
        _ ≤ x.m * 2 ^ 23 := mul_le_mul_right' hlo _
    · calc x.m * 2 ^ 23 < 2 ^ 24 * 2 ^ 23 := mul_lt_mul_of_pos_right hhi (by norm_num)
        _ = 2 ^ 47 := by norm_num
  have hnum0 : 0 < x.m * 2 ^ 23 := by positivity
  have hres := roundQ_eq_pos (x.m * 2 ^ 23) 1 (x.e + -23) 23 x.m
    (by omega) (by omega)
    (by rw [ilog2Q_den_one hnum0 hnum64, hilog]; norm_num)
    (by ring)
  show roundQ (x.m * F32.m ⟨2 ^ 23, -23⟩) 1 (x.e + F32.e ⟨2 ^ 23, -23⟩) = x
  rw [show F32.m ⟨2 ^ 23, -23⟩ = 2 ^ 23 from rfl, show F32.e ⟨2 ^ 23, -23⟩ = -23 from rfl]
  rw [hres]
  cases x with
  | mk m e =>
    simp only [F32.mk.injEq]
    exact ⟨trivial, by omega⟩

theorem truncNat_small_form {i k : Nat} (hk : k ≤ 23) :
    F32.truncNat ⟨i * 2 ^ (23 - k), (k : Int) - 23⟩ = i := by
  simp only [F32.truncNat]
  rcases eq_or_lt_of_le hk with h23 | hlt
  · subst h23
    rw [if_pos (by norm_num)]
    norm_num
  · rw [if_neg (by simp; omega)]
    have ha : ((-((k : Int) - 23)).toNat) = 23 - k := by omega
    rw [ha]
    exact Nat.mul_div_cancel _ (by positivity)

/-- Identity of the nearest-neighbor index map at equal source and
destination extents, for extents up to `2 ^ 24`. -/
theorem nnIdx_self {s i : Nat} (h0 : 0 < s) (h24 : s ≤ 2 ^ 24) (hi : i < s) :
    nnIdx i s s = i := by
  have hmpos : 0 < (natToF32 s).m := by
    rcases eq_or_lt_of_le h24 with hs24 | hs24
    · subst hs24
      rw [natToF32_pow24]
      norm_num
    · rw [natToF32_eq_small h0 hs24]
      positivity
  unfold nnIdx
  rw [F32.div_self hmpos]
  rcases Nat.eq_zero_or_pos i with hi0 | hipos
  · subst hi0
    decide
  · have hi24 : i < 2 ^ 24 := lt_of_lt_of_le hi h24
    rw [natToF32_eq_small hipos hi24]
    obtain ⟨hL, hU⟩ := ilog2_spec hipos (lt_trans hi24 (by norm_num))
    have hk24 : ilog2 i ≤ 23 := by
      by_contra hc
      have : (2 : Nat) ^ 24 ≤ 2 ^ ilog2 i :=
        Nat.pow_le_pow_right (by norm_num) (by omega)
      omega
    have hlo : 2 ^ 23 ≤ i * 2 ^ (23 - ilog2 i) := by
      calc (2 : Nat) ^ 23 = 2 ^ ilog2 i * 2 ^ (23 - ilog2 i) := by
            rw [← pow_add]
            congr 1
            omega
        _ ≤ i * 2 ^ (23 - ilog2 i) := mul_le_mul_right' hL _
    have hhi : i * 2 ^ (23 - ilog2 i) < 2 ^ 24 := by
      calc i * 2 ^ (23 - ilog2 i) < 2 ^ (ilog2 i + 1) * 2 ^ (23 - ilog2 i) :=
            mul_lt_mul_of_pos_right hU (by positivity)
        _ = 2 ^ 24 := by
            rw [← pow_add]
            congr 1
            omega
    rw [F32.mul_norm_one hlo hhi]
    exact truncNat_small_form hk24

/-! ### Rounding-error bounds for the binary32 model -/

theorem ilog2Q_spec {num den : Nat} (hnum : 0 < num) (hden : 0 < den)
    (hn64 : num < 2 ^ 64) (hd64 : den < 2 ^ 64) :
    (2 : ℚ) ^ ilog2Q num den ≤ (num : ℚ) / den ∧
      (num : ℚ) / den < (2 : ℚ) ^ (ilog2Q num den + 1) := by
  obtain ⟨hnL, hnU⟩ := ilog2_spec hnum hn64
  obtain ⟨hdL, hdU⟩ := ilog2_spec hden hd64
  have hdQ : (0 : ℚ) < den := by exact_mod_cast hden
  have h2 : (2 : ℚ) ≠ 0 := by norm_num
  unfold ilog2Q
  set n := ilog2 num with hn
  set d := ilog2 den with hd
  by_cases hc : den * 2 ^ n ≤ num * 2 ^ d
  · rw [if_pos hc]
    constructor
    · have hid : (2 : ℚ) ^ ((n : Int) - d) = (2 : ℚ) ^ (n : Nat) / (2 : ℚ) ^ (d : Nat) := by
        rw [zpow_sub₀ h2, zpow_natCast, zpow_natCast]
      rw [hid, div_le_div_iff (by positivity) hdQ]
      have hcQ : (den : ℚ) * 2 ^ (n : Nat) ≤ (num : ℚ) * 2 ^ (d : Nat) := by
        exact_mod_cast hc
      linarith
    · have hid : (2 : ℚ) ^ ((n : Int) - d + 1) =
          (2 : ℚ) ^ (n + 1 : Nat) / (2 : ℚ) ^ (d : Nat) := by
        have he : (n : Int) - d + 1 = ((n + 1 : Nat) : Int) - (d : Nat) := by push_cast; ring
        rw [he, zpow_sub₀ h2, zpow_natCast, zpow_natCast]
      rw [hid, div_lt_div_iff hdQ (by positivity)]
      have h1 : (num : ℚ) < 2 ^ (n + 1 : Nat) := by exact_mod_cast hnU
      have h2d : (2 : ℚ) ^ (d : Nat) ≤ den := by exact_mod_cast hdL
      calc (num : ℚ) * 2 ^ (d : Nat) < 2 ^ (n + 1 : Nat) * 2 ^ (d : Nat) :=
            mul_lt_mul_of_pos_right h1 (by positivity)
        _ ≤ 2 ^ (n + 1 : Nat) * den := mul_le_mul_of_nonneg_left h2d (by positivity)
  · rw [if_neg hc]
    push_neg at hc
    constructor
    · have hid : (2 : ℚ) ^ ((n : Int) - d - 1) =
          (2 : ℚ) ^ (n : Nat) / (2 : ℚ) ^ (d + 1 : Nat) := by
        have he : (n : Int) - d - 1 = ((n : Nat) : Int) - ((d + 1 : Nat) : Int) := by
          push_cast; ring
        rw [he, zpow_sub₀ h2, zpow_natCast, zpow_natCast]
      rw [hid, div_le_div_iff (by positivity) hdQ]
      have h1 : (2 : ℚ) ^ (n : Nat) ≤ num := by exact_mod_cast hnL
      have h2d : (den : ℚ) ≤ 2 ^ (d + 1 : Nat) := by
        have := hdU
        exact_mod_cast le_of_lt this
      calc (2 : ℚ) ^ (n : Nat) * den ≤ (num : ℚ) * den :=
            mul_le_mul_of_nonneg_right h1 (by positivity)
        _ ≤ (num : ℚ) * 2 ^ (d + 1 : Nat) := mul_le_mul_of_nonneg_left h2d (by positivity)
    · have hid : (2 : ℚ) ^ ((n : Int) - d - 1 + 1) =
          (2 : ℚ) ^ (n : Nat) / (2 : ℚ) ^ (d : Nat) := by
        have he : (n : Int) - d - 1 + 1 = ((n : Nat) : Int) - (d : Nat) := by ring
        rw [he, zpow_sub₀ h2, zpow_natCast, zpow_natCast]
      rw [hid, div_lt_div_iff hdQ (by positivity)]
      have hcQ : (num : ℚ) * 2 ^ (d : Nat) < (den : ℚ) * 2 ^ (n : Nat) := by
        exact_mod_cast hc
      linarith

/-- Core estimate shared by the two sign branches of `roundQ`: a rounding
whose scaled fraction `A / B` lies in the binade `[2 ^ 23, 2 ^ 24)` moves
the value by at most a relative `2 ^ (-23)`. -/
theorem round_core (A B m : Nat) (E sh : Int) (V : ℚ) (hB : 0 < B)
    (hlow : 2 ^ 23 * B ≤ A) (hhi : A < 2 ^ 24 * B)
    (hm_ge : A / B ≤ m) (hm_le : m ≤ A / B + 1)
    (hexact : ((A : ℚ) / B) * 2 ^ E = V) :
    m ≤ 2 ^ 24 ∧ (m : ℚ) * 2 ^ (E + sh) ≤ V * 2 ^ sh * (1 + 2 ^ (-23 : Int)) ∧
      V * 2 ^ sh * (1 - 2 ^ (-23 : Int)) ≤ (m : ℚ) * 2 ^ (E + sh) := by
  have hBQ : (0 : ℚ) < B := by exact_mod_cast hB
  have hq_lt : A / B < 2 ^ 24 := (Nat.div_lt_iff_lt_mul hB).2 (by linarith [hhi])
  have hqQ_le : ((A / B : ℕ) : ℚ) ≤ (A : ℚ) / B := Nat.cast_div_le
  have hAB_lt : (A : ℚ) / B < ((A / B : ℕ) : ℚ) + 1 := by
    have h := Nat.lt_div_mul_add hB (a := A) (b := B)
    have hQ : (A : ℚ) < ((A / B : ℕ) : ℚ) * B + B := by exact_mod_cast h
    rw [div_lt_iff hBQ]
    linarith
  have hABlow : (2 : ℚ) ^ (23 : Nat) ≤ (A : ℚ) / B := by
    rw [le_div_iff hBQ]
    exact_mod_cast hlow
  have hmQ_le : (m : ℚ) ≤ (A : ℚ) / B + 1 := by
    have hx : (m : ℚ) ≤ ((A / B : ℕ) : ℚ) + 1 := by exact_mod_cast hm_le
    linarith
  have hmQ_ge : (A : ℚ) / B - 1 ≤ (m : ℚ) := by
    have hx : ((A / B : ℕ) : ℚ) ≤ (m : ℚ) := by exact_mod_cast hm_ge
    linarith
  have hepspos : (0 : ℚ) < 2 ^ (-23 : Int) := by positivity
  have heps : (1 : ℚ) ≤ ((A : ℚ) / B) * 2 ^ (-23 : Int) := by
    have hone : (2 : ℚ) ^ (23 : Nat) * 2 ^ (-23 : Int) = 1 := by
      rw [← zpow_natCast (2 : ℚ) 23, ← zpow_add₀ (by norm_num : (2 : ℚ) ≠ 0)]
      norm_num
    calc (1 : ℚ) = 2 ^ (23 : Nat) * 2 ^ (-23 : Int) := hone.symm
      _ ≤ ((A : ℚ) / B) * 2 ^ (-23 : Int) :=
        mul_le_mul_of_nonneg_right hABlow (le_of_lt hepspos)
  have hpow : (0 : ℚ) < (2 : ℚ) ^ (E + sh) := by positivity
  refine ⟨by omega, ?_, ?_⟩
  · have hup : (m : ℚ) ≤ ((A : ℚ) / B) * (1 + 2 ^ (-23 : Int)) := by
      rw [mul_add, mul_one]
      linarith
    calc (m : ℚ) * 2 ^ (E + sh) ≤ ((A : ℚ) / B) * (1 + 2 ^ (-23 : Int)) * 2 ^ (E + sh) :=
          mul_le_mul_of_nonneg_right hup (le_of_lt hpow)
      _ = V * 2 ^ sh * (1 + 2 ^ (-23 : Int)) := by
          rw [← hexact, zpow_add₀ (by norm_num : (2 : ℚ) ≠ 0)]
          ring
  · have hdn : ((A : ℚ) / B) * (1 - 2 ^ (-23 : Int)) ≤ (m : ℚ) := by
      rw [mul_sub, mul_one]
      linarith
    calc V * 2 ^ sh * (1 - 2 ^ (-23 : Int))
        = ((A : ℚ) / B) * (1 - 2 ^ (-23 : Int)) * 2 ^ (E + sh) := by
          rw [← hexact, zpow_add₀ (by norm_num : (2 : ℚ) ≠ 0)]
          ring
      _ ≤ (m : ℚ) * 2 ^ (E + sh) := mul_le_mul_of_nonneg_right hdn (le_of_lt hpow)

/-- The mantissa-selection step of `roundQ` (round to nearest, ties to even). -/
def rSel (a b : Nat) : Nat :=
  if b < 2 * (a % b) then a / b + 1
  else if 2 * (a % b) < b then a / b
  else if a / b % 2 = 0 then a / b else a / b + 1

theorem rSel_ge (a b : Nat) : a / b ≤ rSel a b := by
  unfold rSel
  split_ifs <;> omega

theorem rSel_le (a b : Nat) : rSel a b ≤ a / b + 1 := by
  unfold rSel
  split_ifs <;> omega

theorem roundQ_unfold_pos (num den : Nat) (sh : Int) (hnum : num ≠ 0) (hden : den ≠ 0)
    (hc : (0 : Int) ≤ ilog2Q num den - 23) :
    roundQ num den sh = ⟨rSel num (den * 2 ^ (ilog2Q num den - 23).toNat),
      ilog2Q num den - 23 + sh⟩ := by
  simp only [roundQ, rSel]
  rw [if_neg (by omega)]
  simp only [if_pos hc]

theorem roundQ_unfold_neg (num den : Nat) (sh : Int) (hnum : num ≠ 0) (hden : den ≠ 0)
    (hc : ¬ (0 : Int) ≤ ilog2Q num den - 23) :
    roundQ num den sh =
      ⟨rSel (num * 2 ^ (-(ilog2Q num den - 23)).toNat) den, ilog2Q num den - 23 + sh⟩ := by
  simp only [roundQ, rSel]
  rw [if_neg (by omega)]
  simp only [if_neg hc]

/-- The correctly rounded `roundQ` keeps its mantissa at most `2 ^ 24` and its
value within a relative `2 ^ (-23)` of the exact quotient. -/
theorem roundQ_bounds (num den : Nat) (sh : Int)
    (hnum : 0 < num) (hden : 0 < den) (hn64 : num < 2 ^ 64) (hd64 : den < 2 ^ 64) :
    (roundQ num den sh).m ≤ 2 ^ 24 ∧
      (roundQ num den sh).val ≤ (num : ℚ) / den * 2 ^ sh * (1 + 2 ^ (-23 : Int)) ∧
      (num : ℚ) / den * 2 ^ sh * (1 - 2 ^ (-23 : Int)) ≤ (roundQ num den sh).val := by
  obtain ⟨hsL, hsU⟩ := ilog2Q_spec hnum hden hn64 hd64
  have h2ne : (2 : ℚ) ≠ 0 := by norm_num
  have hdQ : (0 : ℚ) < den := by exact_mod_cast hden
  set l := ilog2Q num den with hldef
  by_cases hc : (0 : Int) ≤ l - 23
  · rw [roundQ_unfold_pos num den sh (by omega) (by omega) hc]
    set t := (l - 23).toNat with htdef
    have hteq : (l - 23 : Int) = (t : Int) := by omega
    have hBpos : 0 < den * 2 ^ t := by positivity
    have hlow : 2 ^ 23 * (den * 2 ^ t) ≤ num := by
      have h1 : (2 : ℚ) ^ l * den ≤ num := (le_div_iff₀ hdQ).1 hsL
      have h2 : (2 : ℚ) ^ l = 2 ^ (23 : Nat) * 2 ^ (t : Nat) := by
        rw [← zpow_natCast (2 : ℚ) 23, ← zpow_natCast (2 : ℚ) t, ← zpow_add₀ h2ne]
        congr 1
        omega
      rw [h2] at h1
      have hq : ((2 ^ 23 * (den * 2 ^ t) : ℕ) : ℚ) ≤ (num : ℚ) := by
        push_cast
        linarith
      exact_mod_cast hq
    have hhi : num < 2 ^ 24 * (den * 2 ^ t) := by
      have h1 : (num : ℚ) < 2 ^ (l + 1) * den := by
        rw [← div_lt_iff₀ hdQ]
        exact hsU
      have h2 : (2 : ℚ) ^ (l + 1) = 2 ^ (24 : Nat) * 2 ^ (t : Nat) := by
        rw [← zpow_natCast (2 : ℚ) 24, ← zpow_natCast (2 : ℚ) t, ← zpow_add₀ h2ne]
        congr 1
        omega
      rw [h2] at h1
      have hq : (num : ℚ) < ((2 ^ 24 * (den * 2 ^ t) : ℕ) : ℚ) := by
        push_cast
        linarith
      exact_mod_cast hq
    have hexact : ((num : ℚ) / (den * 2 ^ t : ℕ)) * 2 ^ ((l - 23 : Int)) =
        (num : ℚ) / den := by
      rw [hteq, zpow_natCast]
      push_cast
      rw [div_mul_eq_mul_div]
      rw [mul_comm ((den : ℚ)) ((2 : ℚ) ^ t)]
      rw [← div_div]
      rw [mul_div_assoc]
      rw [div_self (by positivity : ((2 : ℚ) ^ t) ≠ 0)]
      ring
    have hcore := round_core num (den * 2 ^ t) (rSel num (den * 2 ^ t)) (l - 23) sh
      ((num : ℚ) / den) hBpos hlow hhi (rSel_ge _ _) (rSel_le _ _) hexact
    exact ⟨hcore.1, hcore.2.1, hcore.2.2⟩
  · rw [roundQ_unfold_neg num den sh (by omega) (by omega) hc]
    set t := (-(l - 23)).toNat with htdef
    have hteq : (l - 23 : Int) = -(t : Int) := by omega
    have hlow : 2 ^ 23 * den ≤ num * 2 ^ t := by
      have h1 : (2 : ℚ) ^ l * den ≤ num := (le_div_iff₀ hdQ).1 hsL
      have h2 : (2 : ℚ) ^ (23 : Nat) = 2 ^ l * 2 ^ (t : Nat) := by
        rw [← zpow_natCast (2 : ℚ) 23, ← zpow_natCast (2 : ℚ) t, ← zpow_add₀ h2ne]
        congr 1
        omega
      have h3 : (2 : ℚ) ^ (23 : Nat) * den ≤ (num : ℚ) * 2 ^ (t : Nat) := by
        calc (2 : ℚ) ^ (23 : Nat) * den = (2 ^ l * den) * 2 ^ (t : Nat) := by
              rw [h2]; ring
          _ ≤ (num : ℚ) * 2 ^ (t : Nat) :=
              mul_le_mul_of_nonneg_right h1 (by positivity)
      have hq : ((2 ^ 23 * den : ℕ) : ℚ) ≤ ((num * 2 ^ t : ℕ) : ℚ) := by
        push_cast
        linarith
      exact_mod_cast hq
    have hhi : num * 2 ^ t < 2 ^ 24 * den := by
      have h1 : (num : ℚ) < 2 ^ (l + 1) * den := by
        rw [← div_lt_iff₀ hdQ]
        exact hsU
      have h2 : (2 : ℚ) ^ (24 : Nat) = 2 ^ (l + 1) * 2 ^ (t : Nat) := by
        rw [← zpow_natCast (2 : ℚ) 24, ← zpow_natCast (2 : ℚ) t, ← zpow_add₀ h2ne]
        congr 1
        omega
      have h3 : (num : ℚ) * 2 ^ (t : Nat) < 2 ^ (24 : Nat) * den := by
        calc (num : ℚ) * 2 ^ (t : Nat) < (2 ^ (l + 1) * den) * 2 ^ (t : Nat) :=
              mul_lt_mul_of_pos_right h1 (by positivity)
          _ = 2 ^ (24 : Nat) * den := by rw [h2]; ring
      have hq : ((num * 2 ^ t : ℕ) : ℚ) < ((2 ^ 24 * den : ℕ) : ℚ) := by
        push_cast
        linarith
      exact_mod_cast hq
    have hexact : (((num * 2 ^ t : ℕ) : ℚ) / den) * 2 ^ ((l - 23 : Int)) =
        (num : ℚ) / den := by
      rw [hteq]
      push_cast
      rw [zpow_neg, zpow_natCast]
      field_simp
      ring
    have hcore := round_core (num * 2 ^ t) den (rSel (num * 2 ^ t) den) (l - 23) sh
      ((num : ℚ) / den) hden hlow hhi (rSel_ge _ _) (rSel_le _ _) hexact
    exact ⟨hcore.1, hcore.2.1, hcore.2.2⟩

theorem natToF32_zero : natToF32 0 = ⟨0, 0⟩ := by decide

theorem F32.val_nonneg (x : F32) : 0 ≤ x.val := by
  unfold F32.val
  positivity

theorem roundQ_m_pos (num den : Nat) (sh : Int)
    (hnum : 0 < num) (hden : 0 < den) (hn64 : num < 2 ^ 64) (hd64 : den < 2 ^ 64) :
    0 < (roundQ num den sh).m := by
  have h := (roundQ_bounds num den sh hnum hden hn64 hd64).2.2
  by_contra h0
  push_neg at h0
  have hm0 : (roundQ num den sh).m = 0 := by omega
  have hval : (roundQ num den sh).val = 0 := by
    simp [F32.val, hm0]
  rw [hval] at h
  have h1 : (0 : ℚ) < 1 - 2 ^ (-23 : Int) := by norm_num
  have h2 : (0 : ℚ) < (num : ℚ) / den := by
    apply div_pos <;> exact_mod_cast by omega
  have h3 : (0 : ℚ) < (num : ℚ) / den * 2 ^ sh * (1 - 2 ^ (-23 : Int)) := by
    apply mul_pos (mul_pos h2 (by positivity)) h1
  linarith

theorem natToF32_m_le (n : Nat) (h64 : n < 2 ^ 64) : (natToF32 n).m ≤ 2 ^ 24 := by
  rcases Nat.eq_zero_or_pos n with h0 | h0
  · subst h0
    decide
  · exact (roundQ_bounds n 1 0 h0 one_pos h64 (by norm_num)).1

theorem natToF32_m_pos (n : Nat) (h0 : 0 < n) (h64 : n < 2 ^ 64) :
    0 < (natToF32 n).m :=
  roundQ_m_pos n 1 0 h0 one_pos h64 (by norm_num)

theorem natToF32_val_le (n : Nat) (h64 : n < 2 ^ 64) :
    (natToF32 n).val ≤ (n : ℚ) * (1 + 2 ^ (-23 : Int)) := by
  rcases Nat.eq_zero_or_pos n with h0 | h0
  · subst h0
    rw [natToF32_zero]
    simp [F32.val]
  · have h := (roundQ_bounds n 1 0 h0 one_pos h64 (by norm_num)).2.1
    simpa using h

theorem natToF32_val_ge (n : Nat) (h64 : n < 2 ^ 64) :
    (n : ℚ) * (1 - 2 ^ (-23 : Int)) ≤ (natToF32 n).val := by
  rcases Nat.eq_zero_or_pos n with h0 | h0
  · subst h0
    rw [natToF32_zero]
    simp [F32.val]
  · have h := (roundQ_bounds n 1 0 h0 one_pos h64 (by norm_num)).2.2
    simpa using h

theorem F32.div_m_le (x y : F32) (hx64 : x.m < 2 ^ 64) (hy0 : 0 < y.m)
    (hy64 : y.m < 2 ^ 64) : (F32.div x y).m ≤ 2 ^ 24 := by
  unfold F32.div
  rw [if_neg (by omega)]
  rcases Nat.eq_zero_or_pos x.m with h0 | h0
  · simp [roundQ, h0]
  · exact (roundQ_bounds _ _ _ h0 hy0 hx64 hy64).1

theorem F32.div_val_le (x y : F32) (hx64 : x.m < 2 ^ 64) (hy0 : 0 < y.m)
    (hy64 : y.m < 2 ^ 64) :
    (F32.div x y).val ≤ x.val / y.val * (1 + 2 ^ (-23 : Int)) := by
  unfold F32.div
  rw [if_neg (by omega)]
  rcases Nat.eq_zero_or_pos x.m with h0 | h0
  · have hx : x.val = 0 := by simp [F32.val, h0]
    have hv : (roundQ x.m y.m (x.e - y.e)).val = 0 := by
      simp [roundQ, h0, F32.val]
    rw [hv, hx]
    simp
  · have h := (roundQ_bounds x.m y.m (x.e - y.e) h0 hy0 hx64 hy64).2.1
    have hid : (x.m : ℚ) / (y.m : ℚ) * 2 ^ (x.e - y.e) = x.val / y.val := by
      simp only [F32.val]
      rw [zpow_sub₀ (by norm_num : (2 : ℚ) ≠ 0)]
      rw [div_mul_div_comm]
    rw [hid] at h
    exact h

theorem F32.mul_m_le (x y : F32) (h64 : x.m * y.m < 2 ^ 64) :
    (F32.mul x y).m ≤ 2 ^ 24 := by
  unfold F32.mul
  rcases Nat.eq_zero_or_pos (x.m * y.m) with h0 | h0
  · simp [roundQ, h0]
  · exact (roundQ_bounds _ _ _ h0 one_pos h64 (by norm_num)).1

theorem F32.mul_val_le (x y : F32) (h64 : x.m * y.m < 2 ^ 64) :
    (F32.mul x y).val ≤ x.val * y.val * (1 + 2 ^ (-23 : Int)) := by
  unfold F32.mul
  rcases Nat.eq_zero_or_pos (x.m * y.m) with h0 | h0
  · have hv : (roundQ (x.m * y.m) 1 (x.e + y.e)).val = 0 := by
      simp [roundQ, h0, F32.val]
    rw [hv]
    rcases Nat.mul_eq_zero.mp h0 with hx | hy
    · have : x.val = 0 := by simp [F32.val, hx]
      rw [this]
      simp
    · have : y.val = 0 := by simp [F32.val, hy]
      rw [this]
      simp
  · have h := (roundQ_bounds (x.m * y.m) 1 (x.e + y.e) h0 one_pos h64 (by norm_num)).2.1
    rw [Nat.cast_one] at h
    have hid : ((x.m * y.m : ℕ) : ℚ) / (1 : ℚ) * 2 ^ (x.e + y.e) = x.val * y.val := by
      simp only [F32.val]
      rw [zpow_add₀ (by norm_num : (2 : ℚ) ≠ 0)]
      push_cast
      ring
    rw [hid] at h
    exact h

theorem F32.truncNat_le_val (x : F32) : (F32.truncNat x : ℚ) ≤ x.val := by
  unfold F32.truncNat F32.val
  by_cases hc : (0 : Int) ≤ x.e
  · rw [if_pos hc]
    have hcast : ((x.m * 2 ^ x.e.toNat : ℕ) : ℚ) = (x.m : ℚ) * 2 ^ x.e := by
      push_cast
      rw [← zpow_natCast (2 : ℚ) x.e.toNat, Int.toNat_of_nonneg hc]
    exact le_of_eq hcast
  · rw [if_neg hc]
    have h1 : ((x.m / 2 ^ (-x.e).toNat : ℕ) : ℚ) ≤ (x.m : ℚ) / ((2 ^ (-x.e).toNat : ℕ) : ℚ) :=
      Nat.cast_div_le
    have hc2 : ((2 ^ (-x.e).toNat : ℕ) : ℚ) = (2 : ℚ) ^ (-x.e) := by
      push_cast
      rw [← zpow_natCast (2 : ℚ) (-x.e).toNat, Int.toNat_of_nonneg (by omega)]
    rw [hc2] at h1
    have h2 : (x.m : ℚ) / (2 : ℚ) ^ (-x.e) = (x.m : ℚ) * 2 ^ x.e := by
      rw [zpow_neg, div_eq_mul_inv, inv_inv]
    calc ((x.m / 2 ^ (-x.e).toNat : ℕ) : ℚ) ≤ (x.m : ℚ) / (2 : ℚ) ^ (-x.e) := h1
      _ = (x.m : ℚ) * 2 ^ x.e := h2

theorem eps_pow_bound :
    ((1 : ℚ) + 2 ^ (-23 : Int)) ^ 4 ≤ (1 + 2 ^ (-19 : Int)) * (1 - 2 ^ (-23 : Int)) := by
  have h23 : (2 : ℚ) ^ (-23 : Int) = 1 / 8388608 := by norm_num
  have h19 : (2 : ℚ) ^ (-19 : Int) = 1 / 524288 := by norm_num
  rw [h23, h19]
  norm_num

/-- Upper bound on the nearest-neighbor index: the computed source index
never exceeds the source extent by more than a relative `2 ^ (-19)`. -/
theorem nnIdx_le_bound (i s d : Nat) (hs : 0 < s) (hd : 0 < d) (hid : i ≤ d)
    (hs64 : s < 2 ^ 64) (hd64 : d < 2 ^ 64) (hi64 : i < 2 ^ 64) :
    (nnIdx i s d : ℚ) ≤ (s : ℚ) * (1 + 2 ^ (-19 : Int)) := by
  have h1eps : (0 : ℚ) < 1 - 2 ^ (-23 : Int) := by norm_num
  have hdQ : (0 : ℚ) < (d : ℚ) := by exact_mod_cast hd
  have hSm : (natToF32 s).m ≤ 2 ^ 24 := natToF32_m_le s hs64
  have hDm : (natToF32 d).m ≤ 2 ^ 24 := natToF32_m_le d hd64
  have hDm0 : 0 < (natToF32 d).m := natToF32_m_pos d hd hd64
  have hIm : (natToF32 i).m ≤ 2 ^ 24 := natToF32_m_le i hi64
  have hXm : (F32.div (natToF32 s) (natToF32 d)).m ≤ 2 ^ 24 :=
    F32.div_m_le _ _ (by omega) hDm0 (by omega)
  have hprod : (natToF32 i).m * (F32.div (natToF32 s) (natToF32 d)).m < 2 ^ 64 := by
    calc (natToF32 i).m * (F32.div (natToF32 s) (natToF32 d)).m
        ≤ 2 ^ 24 * 2 ^ 24 := Nat.mul_le_mul hIm hXm
      _ < 2 ^ 64 := by norm_num
  have hIub : (natToF32 i).val ≤ (i : ℚ) * (1 + 2 ^ (-23 : Int)) := natToF32_val_le i hi64
  have hSub : (natToF32 s).val ≤ (s : ℚ) * (1 + 2 ^ (-23 : Int)) := natToF32_val_le s hs64
  have hDlb : (d : ℚ) * (1 - 2 ^ (-23 : Int)) ≤ (natToF32 d).val := natToF32_val_ge d hd64
  have hDpos : (0 : ℚ) < (natToF32 d).val := lt_of_lt_of_le (mul_pos hdQ h1eps) hDlb
  have hXub : (F32.div (natToF32 s) (natToF32 d)).val ≤
      (natToF32 s).val / (natToF32 d).val * (1 + 2 ^ (-23 : Int)) :=
    F32.div_val_le _ _ (by omega) hDm0 (by omega)
  have hXnn : (0 : ℚ) ≤ (F32.div (natToF32 s) (natToF32 d)).val := F32.val_nonneg _
  have hMub : (F32.mul (natToF32 i) (F32.div (natToF32 s) (natToF32 d))).val ≤
      (natToF32 i).val * (F32.div (natToF32 s) (natToF32 d)).val * (1 + 2 ^ (-23 : Int)) :=
    F32.mul_val_le _ _ hprod
  have htr : (nnIdx i s d : ℚ) ≤
      (F32.mul (natToF32 i) (F32.div (natToF32 s) (natToF32 d))).val := by
    unfold nnIdx
    exact F32.truncNat_le_val _
  have hXDv : (F32.div (natToF32 s) (natToF32 d)).val * (natToF32 d).val ≤
      (natToF32 s).val * (1 + 2 ^ (-23 : Int)) := by
    calc (F32.div (natToF32 s) (natToF32 d)).val * (natToF32 d).val
        ≤ (natToF32 s).val / (natToF32 d).val * (1 + 2 ^ (-23 : Int)) * (natToF32 d).val :=
          mul_le_mul_of_nonneg_right hXub (le_of_lt hDpos)
      _ = (natToF32 s).val * (1 + 2 ^ (-23 : Int)) := by
          field_simp
          ring
  have hX2 : (F32.div (natToF32 s) (natToF32 d)).val * ((d : ℚ) * (1 - 2 ^ (-23 : Int))) ≤
      (s : ℚ) * (1 + 2 ^ (-23 : Int)) ^ 2 := by
    calc (F32.div (natToF32 s) (natToF32 d)).val * ((d : ℚ) * (1 - 2 ^ (-23 : Int)))
        ≤ (F32.div (natToF32 s) (natToF32 d)).val * (natToF32 d).val :=
          mul_le_mul_of_nonneg_left hDlb hXnn
      _ ≤ (natToF32 s).val * (1 + 2 ^ (-23 : Int)) := hXDv
      _ ≤ (s : ℚ) * (1 + 2 ^ (-23 : Int)) * (1 + 2 ^ (-23 : Int)) :=
          mul_le_mul_of_nonneg_right hSub (by positivity)
      _ = (s : ℚ) * (1 + 2 ^ (-23 : Int)) ^ 2 := by ring
  have hIub2 : (natToF32 i).val ≤ (d : ℚ) * (1 + 2 ^ (-23 : Int)) := by
    refine le_trans hIub ?_
    have : (i : ℚ) ≤ (d : ℚ) := by exact_mod_cast hid
    exact mul_le_mul_of_nonneg_right this (by positivity)
  have hnn : (nnIdx i s d : ℚ) ≤
      (natToF32 i).val * (F32.div (natToF32 s) (natToF32 d)).val * (1 + 2 ^ (-23 : Int)) :=
    le_trans htr hMub
  have hcpos : (0 : ℚ) < (d : ℚ) * (1 - 2 ^ (-23 : Int)) := mul_pos hdQ h1eps
  rw [← mul_le_mul_right hcpos]
  calc (nnIdx i s d : ℚ) * ((d : ℚ) * (1 - 2 ^ (-23 : Int)))
      ≤ (natToF32 i).val * (F32.div (natToF32 s) (natToF32 d)).val * (1 + 2 ^ (-23 : Int)) *
          ((d : ℚ) * (1 - 2 ^ (-23 : Int))) :=
        mul_le_mul_of_nonneg_right hnn (le_of_lt hcpos)
    _ = (natToF32 i).val * (1 + 2 ^ (-23 : Int)) *
          ((F32.div (natToF32 s) (natToF32 d)).val * ((d : ℚ) * (1 - 2 ^ (-23 : Int)))) := by
        ring
    _ ≤ (natToF32 i).val * (1 + 2 ^ (-23 : Int)) *
          ((s : ℚ) * (1 + 2 ^ (-23 : Int)) ^ 2) := by
        apply mul_le_mul_of_nonneg_left hX2
        exact mul_nonneg (F32.val_nonneg _) (by positivity)
    _ ≤ (d : ℚ) * (1 + 2 ^ (-23 : Int)) * (1 + 2 ^ (-23 : Int)) *
          ((s : ℚ) * (1 + 2 ^ (-23 : Int)) ^ 2) := by
        apply mul_le_mul_of_nonneg_right
          (mul_le_mul_of_nonneg_right hIub2 (by positivity)) (by positivity)
    _ = (s : ℚ) * (d : ℚ) * ((1 + 2 ^ (-23 : Int)) ^ 4) := by ring
    _ ≤ (s : ℚ) * (d : ℚ) * ((1 + 2 ^ (-19 : Int)) * (1 - 2 ^ (-23 : Int))) := by
        apply mul_le_mul_of_nonneg_left eps_pow_bound (by positivity)
    _ = (s : ℚ) * (1 + 2 ^ (-19 : Int)) * ((d : ℚ) * (1 - 2 ^ (-23 : Int))) := by ring

/-- Byte addresses stay within a pixel block. -/
theorem pixel_byte_lt {p P i ps : Nat} (hp : p < P) (hi : i < ps) :
    p * ps + i < P * ps := by
  calc p * ps + i < p * ps + ps := by omega
    _ = (p + 1) * ps := by ring
    _ ≤ P * ps := mul_le_mul_right' (by omega) ps

/-- The source byte address computed by `ScaleImage` stays below `2 ^ 32`
whenever the padded source extent times the pixel size fits in `2 ^ 31`. -/
theorem scale_src_addr_lt (sW sH dW dH ps ix iy i : Nat)
    (hsW : 0 < sW) (hsH : 0 < sH)
    (hsW64 : sW < 2 ^ 64) (hsH64 : sH < 2 ^ 64) (hdW64 : dW < 2 ^ 64)
    (hdH64 : dH < 2 ^ 64)
    (hix : ix < dW) (hiy : iy < dH) (hi : i < ps)
    (hcap : (sW + 1) * (sH + 1) * ps ≤ 2 ^ 31) :
    (sW * nnIdx iy sH dH + nnIdx ix sW dW) * ps + i < 2 ^ 32 := by
  have hd19 : (0 : ℚ) ≤ 2 ^ (-19 : Int) := by positivity
  have hpx : (nnIdx ix sW dW : ℚ) ≤ (sW : ℚ) * (1 + 2 ^ (-19 : Int)) :=
    nnIdx_le_bound ix sW dW hsW (by omega) (by omega) hsW64 hdW64 (by omega)
  have hpy : (nnIdx iy sH dH : ℚ) ≤ (sH : ℚ) * (1 + 2 ^ (-19 : Int)) :=
    nnIdx_le_bound iy sH dH hsH (by omega) (by omega) hsH64 hdH64 (by omega)
  have hpsQ : (0 : ℚ) ≤ (ps : ℚ) := by positivity
  have hiQ : (i : ℚ) + 1 ≤ (ps : ℚ) := by exact_mod_cast hi
  have h1 : ((sW : ℚ)) * (nnIdx iy sH dH : ℚ) ≤ (sW : ℚ) * ((sH : ℚ) * (1 + 2 ^ (-19 : Int))) :=
    mul_le_mul_of_nonneg_left hpy (by positivity)
  have h2 : ((sW : ℚ) * (nnIdx iy sH dH : ℚ) + (nnIdx ix sW dW : ℚ)) ≤
      ((sW : ℚ) * (sH : ℚ) + (sW : ℚ)) * (1 + 2 ^ (-19 : Int)) := by
    have := add_le_add h1 hpx
    calc (sW : ℚ) * (nnIdx iy sH dH : ℚ) + (nnIdx ix sW dW : ℚ)
        ≤ (sW : ℚ) * ((sH : ℚ) * (1 + 2 ^ (-19 : Int))) +
            (sW : ℚ) * (1 + 2 ^ (-19 : Int)) := this
      _ = ((sW : ℚ) * (sH : ℚ) + (sW : ℚ)) * (1 + 2 ^ (-19 : Int)) := by ring
  have h3 : ((sW : ℚ) * (nnIdx iy sH dH : ℚ) + (nnIdx ix sW dW : ℚ)) * (ps : ℚ) + (i : ℚ) + 1 ≤
      ((sW : ℚ) * (sH : ℚ) + (sW : ℚ) + 1) * (1 + 2 ^ (-19 : Int)) * (ps : ℚ) := by
    have ha : ((sW : ℚ) * (nnIdx iy sH dH : ℚ) + (nnIdx ix sW dW : ℚ)) * (ps : ℚ) ≤
        ((sW : ℚ) * (sH : ℚ) + (sW : ℚ)) * (1 + 2 ^ (-19 : Int)) * (ps : ℚ) :=
      mul_le_mul_of_nonneg_right h2 hpsQ
    have hb : (ps : ℚ) ≤ (1 + 2 ^ (-19 : Int)) * (ps : ℚ) := by
      nlinarith
    nlinarith
  have h4 : ((sW : ℚ) * (sH : ℚ) + (sW : ℚ) + 1) * (1 + 2 ^ (-19 : Int)) * (ps : ℚ) ≤
      (((sW : ℚ) + 1) * ((sH : ℚ) + 1) * (ps : ℚ)) * (1 + 2 ^ (-19 : Int)) := by
    have hN : ((sW : ℚ) * (sH : ℚ) + (sW : ℚ) + 1) ≤ ((sW : ℚ) + 1) * ((sH : ℚ) + 1) := by
      have hsHQ : (0 : ℚ) ≤ (sH : ℚ) := by positivity
      nlinarith
    nlinarith [mul_le_mul_of_nonneg_right (mul_le_mul_of_nonneg_right hN hd19) hpsQ]
  have hcapQ : ((sW : ℚ) + 1) * ((sH : ℚ) + 1) * (ps : ℚ) ≤ 2 ^ 31 := by
    exact_mod_cast hcap
  have h5 : (((sW : ℚ) + 1) * ((sH : ℚ) + 1) * (ps : ℚ)) * (1 + 2 ^ (-19 : Int)) ≤
      (2 : ℚ) ^ 31 * (1 + 2 ^ (-19 : Int)) := by
    apply mul_le_mul_of_nonneg_right hcapQ (by positivity)
  have h6 : (2 : ℚ) ^ 31 * (1 + 2 ^ (-19 : Int)) ≤ 2 ^ 32 := by
    norm_num
  have hfinal : ((sW * nnIdx iy sH dH + nnIdx ix sW dW) * ps + i : ℕ) < (2 : ℚ) ^ 32 := by
    push_cast
    calc ((sW : ℚ) * (nnIdx iy sH dH : ℚ) + (nnIdx ix sW dW : ℚ)) * (ps : ℚ) + (i : ℚ)
        < ((sW : ℚ) * (nnIdx iy sH dH : ℚ) + (nnIdx ix sW dW : ℚ)) * (ps : ℚ) + (i : ℚ) + 1 := by
          linarith
      _ ≤ 2 ^ 32 := by linarith [h3, h4, h5, h6]
  exact_mod_cast hfinal

/-- Closed form of the nearest-neighbor rescale loop: within bounds, each
destination byte equals the corresponding source byte of the binary32
nearest-neighbor source pixel. -/
theorem ScaleImage_read (ps : Nat) (src d0 : Nat → Nat) (sW sH dW dH : Nat)
    (hsW : 0 < sW) (hsH : 0 < sH)
    (hsW32 : sW < 2 ^ 32) (hsH32 : sH < 2 ^ 32) (hdW32 : dW < 2 ^ 32)
    (hdH32 : dH < 2 ^ 32)
    (hcapS : (sW + 1) * (sH + 1) * ps ≤ 2 ^ 31) (hcapD : dW * dH * ps < 2 ^ 31)
    {ix iy i : Nat} (hix : ix < dW) (hiy : iy < dH) (hi : i < ps) :
    ScaleImage ps src d0 sW sH dW dH ((dW * iy + ix) * ps + i) =
      src ((sW * nnIdx iy sH dH + nnIdx ix sW dW) * ps + i) := by
  have hps : 0 < ps := by omega
  have hpixD : ∀ iy' ix', iy' < dH → ix' < dW → dW * iy' + ix' < dW * dH := by
    intro iy' ix' hy hx
    calc dW * iy' + ix' < dW * iy' + dW := by omega
      _ = dW * (iy' + 1) := by ring
      _ ≤ dW * dH := mul_le_mul_left' (by omega) dW
  have hmodP : ∀ iy' ix', iy' < dH → ix' < dW →
      (dW * iy' + ix') % 2 ^ 32 = dW * iy' + ix' := by
    intro iy' ix' hy hx
    apply Nat.mod_eq_of_lt
    have h1 : dW * iy' + ix' < dW * dH := hpixD iy' ix' hy hx
    have h2 : dW * dH ≤ dW * dH * ps := Nat.le_mul_of_pos_right _ hps
    omega
  have hmodB : ∀ iy' ix' i', iy' < dH → ix' < dW → i' < ps →
      ((dW * iy' + ix') * ps + i') % 2 ^ 32 = (dW * iy' + ix') * ps + i' := by
    intro iy' ix' i' hy hx hii
    apply Nat.mod_eq_of_lt
    have h1 : (dW * iy' + ix') * ps + i' < (dW * dH) * ps :=
      pixel_byte_lt (hpixD iy' ix' hy hx) hii
    omega
  have hmodS : (sW * nnIdx iy sH dH + nnIdx ix sW dW) % 2 ^ 32 =
      sW * nnIdx iy sH dH + nnIdx ix sW dW := by
    apply Nat.mod_eq_of_lt
    have h1 := scale_src_addr_lt sW sH dW dH ps ix iy 0 hsW hsH (by omega) (by omega)
      (by omega) (by omega) hix hiy hps hcapS
    have h2 : (sW * nnIdx iy sH dH + nnIdx ix sW dW) ≤
        (sW * nnIdx iy sH dH + nnIdx ix sW dW) * ps :=
      Nat.le_mul_of_pos_right _ hps
    omega
  have hmodSB : ((sW * nnIdx iy sH dH + nnIdx ix sW dW) * ps + i) % 2 ^ 32 =
      (sW * nnIdx iy sH dH + nnIdx ix sW dW) * ps + i := by
    apply Nat.mod_eq_of_lt
    exact scale_src_addr_lt sW sH dW dH ps ix iy i hsW hsH (by omega) (by omega)
      (by omega) (by omega) hix hiy hi hcapS
  unfold ScaleImage
  apply foldRange_read_hit hix
  · intro g
    apply foldRange_read_hit hiy
    · intro g2
      apply foldRange_read_hit hi
      · intro g3
        simp only [upd, hmodP iy ix hiy hix, hmodS, hmodSB, hmodB iy ix i hiy hix hi,
          if_true]
      · intro g3 i' hi' hne
        simp only [upd, hmodP iy ix hiy hix, hmodB iy ix i' hiy hix hi']
        rw [if_neg]
        intro hjeq
        exact hne (base_inj hi hi' hjeq).2.symm
    · intro g2 iy' hiy' hne
      apply foldRange_read_frame
      intro g3 i' hi'
      simp only [upd, hmodP iy' ix hiy' hix, hmodB iy' ix i' hiy' hix hi']
      rw [if_neg]
      intro hjeq
      have hb := base_inj hi hi' hjeq
      have hcomm : iy * dW + ix = iy' * dW + ix := by
        calc iy * dW + ix = dW * iy + ix := by ring
          _ = dW * iy' + ix := hb.1
          _ = iy' * dW + ix := by ring
      have hp := base_inj hix hix hcomm
      exact hne hp.1.symm
  · intro g ix' hix' hne
    apply foldRange_read_frame
    intro g2 iy' hiy'
    apply foldRange_read_frame
    intro g3 i' hi'
    simp only [upd, hmodP iy' ix' hiy' hix', hmodB iy' ix' i' hiy' hix' hi']
    rw [if_neg]
    intro hjeq
    have hb := base_inj hi hi' hjeq
    have hcomm : iy * dW + ix = iy' * dW + ix' := by
      calc iy * dW + ix = dW * iy + ix := by ring
        _ = dW * iy' + ix' := hb.1
        _ = iy' * dW + ix' := by ring
    have hp := base_inj hix hix' hcomm
    exact hne hp.2.symm

/-! ### Asset-level helper lemmas -/

/-- Well-formedness of a loaded asset: nonnegative metadata whose product
fits a 32-bit signed allocation (as every successfully allocated buffer in
the program does). -/
@[reducible]
def AssetInv (a : ImageAsset) : Prop :=
  0 ≤ a.width_ ∧ 0 ≤ a.height_ ∧ 0 ≤ a.channelCount_ ∧
    a.width_ * a.height_ * a.channelCount_ < 2 ^ 31

/-- The state reached by a failing precondition check: error channel cleared
then loaded with the not-loaded message, everything else untouched. -/
def notLoadedState (a : ImageAsset) : ImageAsset :=
  { a with errorHandler_ := (a.errorHandler_.Clear).SetError ERROR_STR_IMAGE_NOT_LOADED }

theorem unloaded_GetWidth (a : ImageAsset) (h : a.buffer_.buf = none) :
    ImageAsset.GetWidth a = (notLoadedState a, -1) := by
  unfold ImageAsset.GetWidth ImageAsset.clearErr ImageAsset.setErr notLoadedState
  simp [h]

theorem unloaded_GetHeight (a : ImageAsset) (h : a.buffer_.buf = none) :
    ImageAsset.GetHeight a = (notLoadedState a, -1) := by
  unfold ImageAsset.GetHeight ImageAsset.clearErr ImageAsset.setErr notLoadedState
  simp [h]

theorem unloaded_GetChannelCount (a : ImageAsset) (h : a.buffer_.buf = none) :
    ImageAsset.GetChannelCount a = (notLoadedState a, -1) := by
  unfold ImageAsset.GetChannelCount ImageAsset.clearErr ImageAsset.setErr notLoadedState
  simp [h]

theorem unloaded_Clip (a : ImageAsset) (h : a.buffer_.buf = none) (x y w hh : Int) :
    ImageAsset.Clip a x y w hh = notLoadedState a := by
  unfold ImageAsset.Clip ImageAsset.clearErr ImageAsset.setErr notLoadedState
  simp [h]

theorem unloaded_Resize (a : ImageAsset) (h : a.buffer_.buf = none) (w hh : Int) :
    ImageAsset.Resize a w hh = notLoadedState a := by
  unfold ImageAsset.Resize ImageAsset.clearErr ImageAsset.setErr notLoadedState
  simp [h]

theorem unloaded_Unload (a : ImageAsset) (h : a.buffer_.buf = none) :
    ImageAsset.Unload a = notLoadedState a := by
  unfold ImageAsset.Unload ImageAsset.clearErr ImageAsset.setErr notLoadedState
  simp [h]

theorem unloaded_CopyTo (a : ImageAsset) (h : a.buffer_.buf = none) (dst : Nat → Nat) :
    ImageAsset.CopyTo a dst = (notLoadedState a, dst) := by
  unfold ImageAsset.CopyTo ImageAsset.clearErr ImageAsset.setErr notLoadedState
  simp [h]

theorem notLoadedState_msg (a : ImageAsset) :
    (notLoadedState a).errorHandler_.msg = ERROR_STR_IMAGE_NOT_LOADED := rfl

theorem notLoadedState_frame (a : ImageAsset) :
    (notLoadedState a).buffer_ = a.buffer_ ∧ (notLoadedState a).width_ = a.width_ ∧
      (notLoadedState a).height_ = a.height_ ∧
      (notLoadedState a).channelCount_ = a.channelCount_ :=
  ⟨rfl, rfl, rfl, rfl⟩

/-- Every buffer-requiring operation fails with the not-loaded error on an
asset whose buffer pointer is null. -/
def notLoadedFails (r : ImageAsset) : Prop :=
  (ImageAsset.GetWidth r).1.errorHandler_.msg = ERROR_STR_IMAGE_NOT_LOADED ∧
  (ImageAsset.GetWidth r).2 = -1 ∧
  (ImageAsset.GetHeight r).1.errorHandler_.msg = ERROR_STR_IMAGE_NOT_LOADED ∧
  (ImageAsset.GetHeight r).2 = -1 ∧
  (ImageAsset.GetChannelCount r).1.errorHandler_.msg = ERROR_STR_IMAGE_NOT_LOADED ∧
  (ImageAsset.GetChannelCount r).2 = -1 ∧
  (∀ x y w h : Int, (ImageAsset.Clip r x y w h).errorHandler_.msg =
    ERROR_STR_IMAGE_NOT_LOADED) ∧
  (∀ w h : Int, (ImageAsset.Resize r w h).errorHandler_.msg =
    ERROR_STR_IMAGE_NOT_LOADED) ∧
  (ImageAsset.Unload r).errorHandler_.msg = ERROR_STR_IMAGE_NOT_LOADED ∧
  (∀ dst : Nat → Nat, (ImageAsset.CopyTo r dst).1.errorHandler_.msg =
    ERROR_STR_IMAGE_NOT_LOADED)

theorem notLoadedFails_of_none (r : ImageAsset) (h : r.buffer_.buf = none) :
    notLoadedFails r := by
  refine ⟨?_, ?_, ?_, ?_, ?_, ?_, ?_, ?_, ?_, ?_⟩
  · rw [unloaded_GetWidth r h]
    rfl
  · rw [unloaded_GetWidth r h]
  · rw [unloaded_GetHeight r h]
    rfl
  · rw [unloaded_GetHeight r h]
  · rw [unloaded_GetChannelCount r h]
    rfl
  · rw [unloaded_GetChannelCount r h]
  · intro x y w hh
    rw [unloaded_Clip r h]
    rfl
  · intro w hh
    rw [unloaded_Resize r h]
    rfl
  · rw [unloaded_Unload r h]
    rfl
  · intro dst
    rw [unloaded_CopyTo r h]
    rfl

/-! ### Sample concrete states used by counterexamples and witnesses -/

/-- A loaded 2 by 2 RGB asset with a recognizable byte pattern. -/
def sampleAsset : ImageAsset :=
  ⟨⟨some ⟨12, fun j => j % 256⟩, BufSource.Self⟩, 2, 2, 3, ⟨"", []⟩⟩

/-- A loaded 1 by 1 RGB asset. -/
def tinyAsset : ImageAsset :=
  ⟨⟨some ⟨3, fun j => j⟩, BufSource.Self⟩, 1, 1, 3, ⟨"", []⟩⟩

/-- An unloaded asset with zeroed metadata and a stale error message. -/
def staleAsset : ImageAsset :=
  ⟨⟨none, BufSource.Self⟩, 0, 0, 0, ⟨"boom", []⟩⟩

theorem sizeT_zero : sizeT 0 = 0 := by decide

/-! ### Claims -/

/-- C6: the raw-pixel Load entry point always succeeds given a buffer: it
leaves the error channel empty, installs a fresh self-owned copy of exactly
`size` caller bytes (releasing any prior buffer), and stores the given
width, height, and channel count. -/
theorem c6_raw_load_always_succeeds (a : ImageAsset) (pd : Nat → Nat) (size : Nat)
    (w h cc : Int) :
    (ImageAsset.LoadPixels a pd size w h cc).errorHandler_.msg = "" ∧
    (ImageAsset.LoadPixels a pd size w h cc).width_ = w ∧
    (ImageAsset.LoadPixels a pd size w h cc).height_ = h ∧
    (ImageAsset.LoadPixels a pd size w h cc).channelCount_ = cc ∧
    (ImageAsset.LoadPixels a pd size w h cc).buffer_.source = BufSource.Self ∧
    bufSize (ImageAsset.LoadPixels a pd size w h cc) = size ∧
    ∀ j, j < size → readByte (ImageAsset.LoadPixels a pd size w h cc) j = pd j := by
  unfold ImageAsset.LoadPixels ImageAsset.AllocateBuffer ImageAsset.clearErr
  by_cases h0 : size = 0
  · subst h0
    simp [bufSize, readByte, ErrorHandler.Clear]
  · rw [if_neg h0]
    refine ⟨rfl, rfl, rfl, rfl, rfl, rfl, ?_⟩
    intro j hj
    show splice (fun _ => 0) 0 pd 0 size j = pd j
    unfold splice
    rw [if_pos (by omega)]
    congr 1
    omega

theorem c6_witness :
    bufSize (ImageAsset.LoadPixels ImageAsset.init (fun j => j + 1) 3 1 1 3) = 3 ∧
    readByte (ImageAsset.LoadPixels ImageAsset.init (fun j => j + 1) 3 1 1 3) 2 = 3 :=
  ⟨(c6_raw_load_always_succeeds ImageAsset.init (fun j => j + 1) 3 1 1 3).2.2.2.2.2.1,
   (c6_raw_load_always_succeeds ImageAsset.init (fun j => j + 1) 3 1 1 3).2.2.2.2.2.2
     2 (by decide)⟩

/-- C9: successful zero-sized outcomes (raw-pixel Load with size 0, and an
in-range Clip whose width or height is 0) set no error, install a null
buffer pointer while still updating the metadata, and leave the asset in
the unloaded state, so every subsequent buffer-requiring operation fails
with the not-loaded error. -/
theorem c9_zero_sized_buffer :
    (∀ (a : ImageAsset) (pd : Nat → Nat) (w h cc : Int),
      (ImageAsset.LoadPixels a pd 0 w h cc).errorHandler_.msg = "" ∧
      (ImageAsset.LoadPixels a pd 0 w h cc).buffer_.buf = none ∧
      (ImageAsset.LoadPixels a pd 0 w h cc).width_ = w ∧
      (ImageAsset.LoadPixels a pd 0 w h cc).height_ = h ∧
      (ImageAsset.LoadPixels a pd 0 w h cc).channelCount_ = cc ∧
      notLoadedFails (ImageAsset.LoadPixels a pd 0 w h cc)) ∧
    (∀ (a : ImageAsset) (f : PixBuf) (x y w h : Int),
      a.buffer_.buf = some f →
      0 ≤ a.height_ - y - h → a.height_ - y - h ≤ a.height_ →
      0 ≤ a.height_ - y → a.height_ - y ≤ a.height_ →
      0 ≤ x → x ≤ a.width_ → 0 ≤ x + w → x + w ≤ a.width_ →
      (w = 0 ∨ h = 0) →
      (ImageAsset.Clip a x y w h).errorHandler_.msg = "" ∧
      (ImageAsset.Clip a x y w h).buffer_.buf = none ∧
      (ImageAsset.Clip a x y w h).width_ = w ∧
      (ImageAsset.Clip a x y w h).height_ = h ∧
      (ImageAsset.Clip a x y w h).channelCount_ = a.channelCount_ ∧
      notLoadedFails (ImageAsset.Clip a x y w h)) := by
  constructor
  · intro a pd w h cc
    refine ⟨rfl, rfl, rfl, rfl, rfl, ?_⟩
    exact notLoadedFails_of_none _ rfl
  · intro a f x y w h hb h1 h2 h3 h4 h5 h6 h7 h8 h0
    have hprod : w * h * a.channelCount_ = 0 := by
      rcases h0 with h' | h' <;> subst h' <;> ring
    have hbuf : ∀ P : ImageAsset → Prop,
        P ({ a.clearErr with
              buffer_ := ⟨none, BufSource.Self⟩, width_ := w, height_ := h }) →
        P (ImageAsset.Clip a x y w h) := by
      intro P hP
      unfold ImageAsset.Clip
      simp only [ImageAsset.clearErr] at hP ⊢
      rw [hb]
      simp only []
      rw [if_neg (by omega)]
      rw [hprod, sizeT_zero]
      simpa [ImageAsset.AllocateBuffer] using hP
    refine ⟨?_, ?_, ?_, ?_, ?_, ?_⟩
    · exact hbuf (fun r => r.errorHandler_.msg = "") rfl
    · exact hbuf (fun r => r.buffer_.buf = none) rfl
    · exact hbuf (fun r => r.width_ = w) rfl
    · exact hbuf (fun r => r.height_ = h) rfl
    · exact hbuf (fun r => r.channelCount_ = a.channelCount_) rfl
    · have hnone : (ImageAsset.Clip a x y w h).buffer_.buf = none :=
        hbuf (fun r => r.buffer_.buf = none) rfl
      exact notLoadedFails_of_none _ hnone

theorem c9_witness :
    (ImageAsset.LoadPixels sampleAsset (fun j => j) 0 5 6 3).buffer_.buf = none ∧
    (ImageAsset.Clip tinyAsset 0 0 0 0).buffer_.buf = none ∧
    (ImageAsset.GetWidth (ImageAsset.Clip tinyAsset 0 0 0 0)).2 = -1 := by
  have h2 := c9_zero_sized_buffer.2 tinyAsset ⟨3, fun j => j⟩ 0 0 0 0 rfl (by decide)
    (by decide) (by decide) (by decide) (by decide) (by decide) (by decide) (by decide)
    (Or.inl rfl)
  have hn := h2.2.2.2.2.2
  exact ⟨(c9_zero_sized_buffer.1 sampleAsset (fun j => j) 5 6 3).2.1, h2.2.1, hn.2.1⟩

/-- C10: Clone invoked on an unloaded asset with zeroed metadata (the state
left by Unload) does not fail: the source is untouched (in particular no
error is set on it) and the returned instance is itself unloaded, with a
copy of the zeroed metadata and an empty error message. -/
theorem c10_clone_of_unloaded (a : ImageAsset) (h : a.buffer_.buf = none)
    (hw : a.width_ = 0) (hh : a.height_ = 0) (hc : a.channelCount_ = 0) :
    (ImageAsset.Clone a).1 = a ∧
    (ImageAsset.Clone a).2.buffer_.buf = none ∧
    (ImageAsset.Clone a).2.width_ = 0 ∧
    (ImageAsset.Clone a).2.height_ = 0 ∧
    (ImageAsset.Clone a).2.channelCount_ = 0 ∧
    (ImageAsset.Clone a).2.errorHandler_.msg = "" := by
  have hsz : sizeT (a.width_ * a.height_ * a.channelCount_) = 0 := by
    rw [hw, hh, hc]
    decide
  unfold ImageAsset.Clone
  rw [hsz, hw, hh, hc]
  exact ⟨rfl, rfl, rfl, rfl, rfl, rfl⟩

theorem c10_witness :
    (ImageAsset.Clone (ImageAsset.Unload sampleAsset)).1 = ImageAsset.Unload sampleAsset ∧
    (ImageAsset.Clone (ImageAsset.Unload sampleAsset)).2.buffer_.buf = none ∧
    (ImageAsset.Clone (ImageAsset.Unload sampleAsset)).2.errorHandler_.msg = "" := by
  have h := c10_clone_of_unloaded (ImageAsset.Unload sampleAsset) rfl rfl rfl rfl
  exact ⟨h.1, h.2.1, h.2.2.2.2.2⟩

/-- C3 (amended): GetWidth, GetHeight, GetChannelCount, Clip, Resize, Unload
and CopyTo, invoked on an unloaded asset, set the not-loaded error, return
the documented sentinel (-1 for the dimension queries, the untouched caller
store for CopyTo) and mutate nothing but the error channel.  Clone is
excluded: it performs no precondition check (see the counterexample). -/
theorem c3_unloaded_precondition (a : ImageAsset) (h : a.buffer_.buf = none) :
    ImageAsset.GetWidth a = (notLoadedState a, -1) ∧
    ImageAsset.GetHeight a = (notLoadedState a, -1) ∧
    ImageAsset.GetChannelCount a = (notLoadedState a, -1) ∧
    (∀ x y w hh : Int, ImageAsset.Clip a x y w hh = notLoadedState a) ∧
    (∀ w hh : Int, ImageAsset.Resize a w hh = notLoadedState a) ∧
    ImageAsset.Unload a = notLoadedState a ∧
    (∀ dst : Nat → Nat, ImageAsset.CopyTo a dst = (notLoadedState a, dst)) ∧
    (notLoadedState a).errorHandler_.msg = ERROR_STR_IMAGE_NOT_LOADED ∧
    (notLoadedState a).buffer_ = a.buffer_ ∧
    (notLoadedState a).width_ = a.width_ ∧
    (notLoadedState a).height_ = a.height_ ∧
    (notLoadedState a).channelCount_ = a.channelCount_ :=
  ⟨unloaded_GetWidth a h, unloaded_GetHeight a h, unloaded_GetChannelCount a h,
    fun x y w hh => unloaded_Clip a h x y w hh, fun w hh => unloaded_Resize a h w hh,
    unloaded_Unload a h, fun dst => unloaded_CopyTo a h dst, rfl, rfl, rfl, rfl, rfl⟩

/-- C3 counterexample: Clone, invoked on an unloaded asset, does not set the
not-loaded error — neither on the source (which keeps its stale message)
nor on the returned instance. -/
theorem c3_counterexample_clone :
    staleAsset.buffer_.buf = none ∧
    (ImageAsset.Clone staleAsset).1.errorHandler_.msg ≠ ERROR_STR_IMAGE_NOT_LOADED ∧
    (ImageAsset.Clone staleAsset).2.errorHandler_.msg ≠ ERROR_STR_IMAGE_NOT_LOADED := by
  refine ⟨rfl, ?_, ?_⟩ <;> decide

theorem c3_witness :
    ImageAsset.GetWidth staleAsset = (notLoadedState staleAsset, -1) ∧
    (∀ w hh : Int, ImageAsset.Resize staleAsset w hh = notLoadedState staleAsset) :=
  ⟨(c3_unloaded_precondition staleAsset rfl).1,
   (c3_unloaded_precondition staleAsset rfl).2.2.2.2.1⟩

/-! ### Error-channel call discipline -/

/-- Number of set events in a trace. -/
def countSet : List ErrEvent → Nat
  | [] => 0
  | ErrEvent.set _ :: t => countSet t + 1
  | ErrEvent.clear :: t => countSet t

/-- The error-channel discipline of one call: the events appended to the log
by the call start with a clear and contain at most one set. -/
def goodCallTrace (before after : ErrorHandler) : Prop :=
  ∃ t, after.log = before.log ++ t ∧ t.head? = some ErrEvent.clear ∧ countSet t ≤ 1

theorem goodCallTrace_clear (e : ErrorHandler) : goodCallTrace e e.Clear :=
  ⟨[ErrEvent.clear], rfl, rfl, by simp [countSet]⟩

theorem goodCallTrace_clear_set (e : ErrorHandler) (m : String) :
    goodCallTrace e ((e.Clear).SetError m) :=
  ⟨[ErrEvent.clear, ErrEvent.set m],
   by simp [ErrorHandler.Clear, ErrorHandler.SetError], rfl, by simp [countSet]⟩

theorem goodCallTrace_comp {e e2 after : ErrorHandler} (h2 : e2 = e.Clear)
    (h : goodCallTrace e2 after) : goodCallTrace e after := by
  obtain ⟨t, ht, hh, hc⟩ := h
  refine ⟨ErrEvent.clear :: t, ?_, rfl, ?_⟩
  · rw [ht, h2]
    simp [ErrorHandler.Clear]
  · simpa [countSet] using hc

theorem trace_LoadPixels (a : ImageAsset) (pd : Nat → Nat) (size : Nat)
    (w h cc : Int) :
    goodCallTrace a.errorHandler_ (ImageAsset.LoadPixels a pd size w h cc).errorHandler_ := by
  unfold ImageAsset.LoadPixels ImageAsset.clearErr
  exact goodCallTrace_clear _

theorem trace_LoadFromFile (env : StbEnv) (a : ImageAsset) :
    goodCallTrace a.errorHandler_ (ImageAsset.LoadFromFile env a).errorHandler_ := by
  unfold ImageAsset.LoadFromFile ImageAsset.clearErr ImageAsset.setErr
  rcases env.res with _ | img
  · exact goodCallTrace_clear_set _ _
  · exact goodCallTrace_clear _

theorem trace_LoadFile (env : StbEnv) (a : ImageAsset) :
    goodCallTrace a.errorHandler_ (ImageAsset.LoadFile env a).errorHandler_ := by
  unfold ImageAsset.LoadFile ImageAsset.clearErr ImageAsset.setErr
  rcases env.res with _ | img
  · exact goodCallTrace_clear_set _ _
  · exact goodCallTrace_clear _

theorem trace_LoadWebP (env : WebPEnv) (a : ImageAsset) :
    goodCallTrace a.errorHandler_ (ImageAsset.LoadWebP env a).errorHandler_ := by
  unfold ImageAsset.LoadWebP ImageAsset.clearErr ImageAsset.setErr
  rcases env.info with _ | ⟨w, h⟩
  · exact goodCallTrace_clear_set _ _
  · split_ifs <;>
      first
        | exact goodCallTrace_clear_set _ _
        | exact goodCallTrace_clear _

theorem trace_LoadJpeg (env : JpegEnv) (a : ImageAsset) :
    goodCallTrace a.errorHandler_ (ImageAsset.LoadJpeg env a).errorHandler_ := by
  unfold ImageAsset.LoadJpeg ImageAsset.clearErr ImageAsset.setErr
  split_ifs <;>
    first
      | exact goodCallTrace_clear_set _ _
      | (rcases env.header with _ | ⟨w, h⟩ <;>
          first
            | exact goodCallTrace_clear_set _ _
            | exact goodCallTrace_clear _)

theorem trace_LoadWebPFromFile (fenv : FileEnv) (webp : WebPEnv) (a : ImageAsset) :
    goodCallTrace a.errorHandler_
      (ImageAsset.LoadWebPFromFile fenv webp a).errorHandler_ := by
  unfold ImageAsset.LoadWebPFromFile ImageAsset.clearErr ImageAsset.setErr
  split_ifs <;>
    first
      | exact goodCallTrace_clear_set _ _
      | exact goodCallTrace_comp rfl (trace_LoadWebP webp _)

theorem trace_LoadJpegFromFile (fenv : FileEnv) (jpeg : JpegEnv) (a : ImageAsset) :
    goodCallTrace a.errorHandler_
      (ImageAsset.LoadJpegFromFile fenv jpeg a).errorHandler_ := by
  unfold ImageAsset.LoadJpegFromFile ImageAsset.clearErr ImageAsset.setErr
  split_ifs <;>
    first
      | exact goodCallTrace_clear_set _ _
      | exact goodCallTrace_comp rfl (trace_LoadJpeg jpeg _)

theorem trace_LoadBytes (sniff : SniffEnv) (webp : WebPEnv) (jpeg : JpegEnv)
    (stb : StbEnv) (a : ImageAsset) :
    goodCallTrace a.errorHandler_
      (ImageAsset.LoadBytes sniff webp jpeg stb a).errorHandler_ := by
  unfold ImageAsset.LoadBytes ImageAsset.clearErr
  split_ifs
  · exact goodCallTrace_comp rfl (trace_LoadWebP webp _)
  · exact goodCallTrace_comp rfl (trace_LoadJpeg jpeg _)
  · exact goodCallTrace_comp rfl (trace_LoadFile stb _)

theorem trace_LoadPath (fenv : FileEnv) (sniff : SniffEnv) (webp : WebPEnv)
    (jpeg : JpegEnv) (stb : StbEnv) (a : ImageAsset) :
    goodCallTrace a.errorHandler_
      (ImageAsset.LoadPath fenv sniff webp jpeg stb a).errorHandler_ := by
  unfold ImageAsset.LoadPath ImageAsset.clearErr ImageAsset.setErr
  split_ifs <;>
    first
      | exact goodCallTrace_clear_set _ _
      | exact goodCallTrace_comp rfl (trace_LoadWebPFromFile fenv webp _)
      | exact goodCallTrace_comp rfl (trace_LoadJpegFromFile fenv jpeg _)
      | exact goodCallTrace_comp rfl (trace_LoadFromFile stb _)

theorem trace_GetWidth (a : ImageAsset) :
    goodCallTrace a.errorHandler_ (ImageAsset.GetWidth a).1.errorHandler_ := by
  unfold ImageAsset.GetWidth ImageAsset.clearErr ImageAsset.setErr
  rcases hb : a.buffer_.buf with _ | f <;> simp [hb]
  · exact goodCallTrace_clear_set _ _
  · exact goodCallTrace_clear _

theorem trace_GetHeight (a : ImageAsset) :
    goodCallTrace a.errorHandler_ (ImageAsset.GetHeight a).1.errorHandler_ := by
  unfold ImageAsset.GetHeight ImageAsset.clearErr ImageAsset.setErr
  rcases hb : a.buffer_.buf with _ | f <;> simp [hb]
  · exact goodCallTrace_clear_set _ _
  · exact goodCallTrace_clear _

theorem trace_GetChannelCount (a : ImageAsset) :
    goodCallTrace a.errorHandler_ (ImageAsset.GetChannelCount a).1.errorHandler_ := by
  unfold ImageAsset.GetChannelCount ImageAsset.clearErr ImageAsset.setErr
  rcases hb : a.buffer_.buf with _ | f <;> simp [hb]
  · exact goodCallTrace_clear_set _ _
  · exact goodCallTrace_clear _

theorem trace_Clip (a : ImageAsset) (x y w h : Int) :
    goodCallTrace a.errorHandler_ (ImageAsset.Clip a x y w h).errorHandler_ := by
  unfold ImageAsset.Clip ImageAsset.clearErr ImageAsset.setErr
  rcases hb : a.buffer_.buf with _ | f <;> simp [hb]
  · exact goodCallTrace_clear_set _ _
  · split_ifs
    · exact goodCallTrace_clear_set _ _
    · exact goodCallTrace_clear _

theorem trace_Resize (a : ImageAsset) (w h : Int) :
    goodCallTrace a.errorHandler_ (ImageAsset.Resize a w h).errorHandler_ := by
  unfold ImageAsset.Resize ImageAsset.clearErr ImageAsset.setErr
  rcases hb : a.buffer_.buf with _ | f <;> simp [hb]
  · exact goodCallTrace_clear_set _ _
  · exact goodCallTrace_clear _

theorem trace_Unload (a : ImageAsset) :
    goodCallTrace a.errorHandler_ (ImageAsset.Unload a).errorHandler_ := by
  unfold ImageAsset.Unload ImageAsset.clearErr ImageAsset.setErr
  rcases hb : a.buffer_.buf with _ | f <;> simp [hb]
  · exact goodCallTrace_clear_set _ _
  · exact goodCallTrace_clear _

theorem trace_CopyTo (a : ImageAsset) (dst : Nat → Nat) :
    goodCallTrace a.errorHandler_ (ImageAsset.CopyTo a dst).1.errorHandler_ := by
  unfold ImageAsset.CopyTo ImageAsset.clearErr ImageAsset.setErr
  rcases hb : a.buffer_.buf with _ | f <;> simp [hb]
  · exact goodCallTrace_clear_set _ _
  · exact goodCallTrace_clear _

/-- C4 (amended): every public operation except GetError and Clone clears
the error channel at the start of the call (even the operations that cannot
fail) and sets it at most once within the call; GetError and Clone touch
the error channel of the called asset not at all (see the counterexample). -/
theorem c4_error_discipline :
    (∀ (fenv : FileEnv) (sniff : SniffEnv) (webp : WebPEnv) (jpeg : JpegEnv)
        (stb : StbEnv) (a : ImageAsset),
      goodCallTrace a.errorHandler_
        (ImageAsset.LoadPath fenv sniff webp jpeg stb a).errorHandler_) ∧
    (∀ (sniff : SniffEnv) (webp : WebPEnv) (jpeg : JpegEnv) (stb : StbEnv)
        (a : ImageAsset),
      goodCallTrace a.errorHandler_
        (ImageAsset.LoadBytes sniff webp jpeg stb a).errorHandler_) ∧
    (∀ (a : ImageAsset) (pd : Nat → Nat) (size : Nat) (w h cc : Int),
      goodCallTrace a.errorHandler_
        (ImageAsset.LoadPixels a pd size w h cc).errorHandler_) ∧
    (∀ a : ImageAsset,
      goodCallTrace a.errorHandler_ (ImageAsset.GetWidth a).1.errorHandler_) ∧
    (∀ a : ImageAsset,
      goodCallTrace a.errorHandler_ (ImageAsset.GetHeight a).1.errorHandler_) ∧
    (∀ a : ImageAsset,
      goodCallTrace a.errorHandler_ (ImageAsset.GetChannelCount a).1.errorHandler_) ∧
    (∀ (a : ImageAsset) (x y w h : Int),
      goodCallTrace a.errorHandler_ (ImageAsset.Clip a x y w h).errorHandler_) ∧
    (∀ (a : ImageAsset) (w h : Int),
      goodCallTrace a.errorHandler_ (ImageAsset.Resize a w h).errorHandler_) ∧
    (∀ a : ImageAsset,
      goodCallTrace a.errorHandler_ (ImageAsset.Unload a).errorHandler_) ∧
    (∀ (a : ImageAsset) (dst : Nat → Nat),
      goodCallTrace a.errorHandler_ (ImageAsset.CopyTo a dst).1.errorHandler_) :=
  ⟨trace_LoadPath, trace_LoadBytes, trace_LoadPixels, trace_GetWidth, trace_GetHeight,
    trace_GetChannelCount, trace_Clip, trace_Resize, trace_Unload, trace_CopyTo⟩

/-- C4 counterexample: Clone performs no clear (and no event at all) on the
error channel of the called asset, and GetError likewise returns the stale
message without clearing it; so not every public operation clears the error
state at the start of the call. -/
theorem c4_counterexample_clone_geterror :
    (ImageAsset.Clone staleAsset).1.errorHandler_.log = staleAsset.errorHandler_.log ∧
    (ImageAsset.Clone staleAsset).1.errorHandler_.msg = "boom" ∧
    ImageAsset.GetError staleAsset = "boom" ∧
    ¬ goodCallTrace staleAsset.errorHandler_ (ImageAsset.Clone staleAsset).1.errorHandler_ := by
  refine ⟨rfl, rfl, rfl, ?_⟩
  rintro ⟨t, ht, hh, -⟩
  have hnil : t = [] := by
    have : ([] : List ErrEvent) = [] ++ t := ht
    simpa using this.symm
  subst hnil
  simp at hh

/-! ### Decode success predicates -/

/-- Success of one WebP decode run. -/
@[reducible]
def webpSucceeds (env : WebPEnv) : Prop :=
  env.info.isSome = true ∧ env.initOk = true ∧ env.featuresStatus = 0 ∧
    env.decodeStatus = 0

/-- Success of one JPEG decode run. -/
@[reducible]
def jpegSucceeds (env : JpegEnv) : Prop :=
  env.initTransformOk = true ∧ env.transformOk = true ∧
    env.initDecompressOk = true ∧ env.header.isSome = true ∧
    env.decompressOk = true

/-- Success of one generic-decoder run. -/
@[reducible]
def stbSucceeds (env : StbEnv) : Prop := env.res.isSome = true

/-- Success of the whole-file read sequence (open, seek, nonzero size, seek,
read). -/
@[reducible]
def fileReadSucceeds (env : FileEnv) : Prop :=
  env.openOk = true ∧ env.seekEndOk = true ∧ env.size ≠ 0 ∧
    env.seekSetOk = true ∧ env.readOk = true

theorem c1_webp_buffer (env : WebPEnv) (a : ImageAsset) (hfail : ¬ webpSucceeds env) :
    (ImageAsset.LoadWebP env a).buffer_ = a.buffer_ := by
  unfold ImageAsset.LoadWebP ImageAsset.clearErr ImageAsset.setErr
  rcases hinfo : env.info with _ | ⟨w, h⟩
  · rfl
  · split_ifs with h1 h2 h3
    · rfl
    · rfl
    · rfl
    · exfalso
      apply hfail
      refine ⟨by rw [hinfo]; rfl, ?_, ?_, ?_⟩
      · simpa using h1
      · omega
      · omega

theorem c1_jpeg_buffer (env : JpegEnv) (a : ImageAsset) (hfail : ¬ jpegSucceeds env) :
    (ImageAsset.LoadJpeg env a).buffer_ = a.buffer_ := by
  unfold ImageAsset.LoadJpeg ImageAsset.clearErr ImageAsset.setErr
  split_ifs with h1 h2 h3 h4
  · rfl
  · rfl
  · rfl
  · rcases hhead : env.header with _ | ⟨w, h⟩ <;> rfl
  · rcases hhead : env.header with _ | ⟨w, h⟩
    · rfl
    · exfalso
      apply hfail
      refine ⟨?_, ?_, ?_, by rw [hhead]; rfl, ?_⟩
      · simpa using h1
      · simpa using h2
      · simpa using h3
      · simpa using h4

theorem c1_stb_buffer (env : StbEnv) (a : ImageAsset) (hfail : ¬ stbSucceeds env) :
    (ImageAsset.LoadFile env a).buffer_ = a.buffer_ ∧
      (ImageAsset.LoadFromFile env a).buffer_ = a.buffer_ := by
  unfold ImageAsset.LoadFile ImageAsset.LoadFromFile ImageAsset.clearErr ImageAsset.setErr
  rcases hres : env.res with _ | img
  · exact ⟨rfl, rfl⟩
  · exfalso
    apply hfail
    show env.res.isSome = true
    rw [hres]
    rfl

theorem c1_webp_file_buffer (fenv : FileEnv) (webp : WebPEnv) (a : ImageAsset)
    (hfail : ¬ (fileReadSucceeds fenv ∧ webpSucceeds webp)) :
    (ImageAsset.LoadWebPFromFile fenv webp a).buffer_ = a.buffer_ := by
  unfold ImageAsset.LoadWebPFromFile ImageAsset.clearErr ImageAsset.setErr
  split_ifs with h1 h2 h3 h4 h5
  · rfl
  · rfl
  · rfl
  · rfl
  · rfl
  · have hwebp : ¬ webpSucceeds webp := by
      intro hs
      apply hfail
      refine ⟨⟨?_, ?_, h3, ?_, ?_⟩, hs⟩
      · simpa using h1
      · simpa using h2
      · simpa using h4
      · simpa using h5
    exact c1_webp_buffer webp _ hwebp

theorem c1_jpeg_file_buffer (fenv : FileEnv) (jpeg : JpegEnv) (a : ImageAsset)
    (hfail : ¬ (fileReadSucceeds fenv ∧ jpegSucceeds jpeg)) :
    (ImageAsset.LoadJpegFromFile fenv jpeg a).buffer_ = a.buffer_ := by
  unfold ImageAsset.LoadJpegFromFile ImageAsset.clearErr ImageAsset.setErr
  split_ifs with h1 h2 h3 h4 h5
  · rfl
  · rfl
  · rfl
  · rfl
  · rfl
  · have hjpeg : ¬ jpegSucceeds jpeg := by
      intro hs
      apply hfail
      refine ⟨⟨?_, ?_, h3, ?_, ?_⟩, hs⟩
      · simpa using h1
      · simpa using h2
      · simpa using h4
      · simpa using h5
    exact c1_jpeg_buffer jpeg _ hjpeg

/-- C1 (amended): on every failing load — any WebP info, decoder-config,
feature or decode failure, any JPEG handle, transform, header or decompress
failure, any generic-decoder failure, and any file I/O failure — the pixel
buffer is preserved intact; the width, height and channel-count metadata,
however, may already have been overwritten by the dimension probe that
preceded the failure (see the counterexample), so the prior metadata is not
always preserved. -/
theorem c1_failing_load_preserves_buffer :
    (∀ (env : WebPEnv) (a : ImageAsset), ¬ webpSucceeds env →
      (ImageAsset.LoadWebP env a).buffer_ = a.buffer_) ∧
    (∀ (env : JpegEnv) (a : ImageAsset), ¬ jpegSucceeds env →
      (ImageAsset.LoadJpeg env a).buffer_ = a.buffer_) ∧
    (∀ (env : StbEnv) (a : ImageAsset), ¬ stbSucceeds env →
      (ImageAsset.LoadFile env a).buffer_ = a.buffer_ ∧
        (ImageAsset.LoadFromFile env a).buffer_ = a.buffer_) ∧
    (∀ (fenv : FileEnv) (webp : WebPEnv) (a : ImageAsset),
      ¬ (fileReadSucceeds fenv ∧ webpSucceeds webp) →
      (ImageAsset.LoadWebPFromFile fenv webp a).buffer_ = a.buffer_) ∧
    (∀ (fenv : FileEnv) (jpeg : JpegEnv) (a : ImageAsset),
      ¬ (fileReadSucceeds fenv ∧ jpegSucceeds jpeg) →
      (ImageAsset.LoadJpegFromFile fenv jpeg a).buffer_ = a.buffer_) ∧
    (∀ (sniff : SniffEnv) (webp : WebPEnv) (jpeg : JpegEnv) (stb : StbEnv)
        (a : ImageAsset),
      ¬ webpSucceeds webp → ¬ jpegSucceeds jpeg → ¬ stbSucceeds stb →
      (ImageAsset.LoadBytes sniff webp jpeg stb a).buffer_ = a.buffer_) ∧
    (∀ (fenv : FileEnv) (sniff : SniffEnv) (webp : WebPEnv) (jpeg : JpegEnv)
        (stb : StbEnv) (a : ImageAsset),
      ¬ webpSucceeds webp → ¬ jpegSucceeds jpeg → ¬ stbSucceeds stb →
      (ImageAsset.LoadPath fenv sniff webp jpeg stb a).buffer_ = a.buffer_) := by
  refine ⟨c1_webp_buffer, c1_jpeg_buffer, c1_stb_buffer, c1_webp_file_buffer,
    c1_jpeg_file_buffer, ?_, ?_⟩
  · intro sniff webp jpeg stb a hw hj hs
    unfold ImageAsset.LoadBytes ImageAsset.clearErr
    split_ifs
    · exact c1_webp_buffer webp _ hw
    · exact c1_jpeg_buffer jpeg _ hj
    · exact (c1_stb_buffer stb _ hs).1
  · intro fenv sniff webp jpeg stb a hw hj hs
    unfold ImageAsset.LoadPath ImageAsset.clearErr ImageAsset.setErr
    split_ifs
    · rfl
    · rfl
    · rfl
    · rfl
    · rfl
    · exact c1_webp_file_buffer fenv webp _ (by intro hc; exact hw hc.2)
    · exact c1_jpeg_file_buffer fenv jpeg _ (by intro hc; exact hj hc.2)
    · exact (c1_stb_buffer stb _ hs).2

/-- Environment of a WebP decode whose info probe succeeds at 2 by 2 but
whose feature probe fails with a nonzero status, as for truncated data. -/
def c1FailEnv : WebPEnv := ⟨some (2, 2), true, 7, 0, fun _ => 0⟩

/-- C1 counterexample: a WebP load that fails after the info probe leaves
the error channel loaded but has already overwritten the width, height and
channel count, so the prior state is not preserved intact and the metadata
is mutated independently of the pixel buffer it describes. -/
theorem c1_counterexample_webp_metadata :
    (ImageAsset.LoadWebP c1FailEnv sampleAsset).errorHandler_.msg ≠ "" ∧
    sampleAsset.width_ = 2 ∧ sampleAsset.height_ = 2 ∧ sampleAsset.channelCount_ = 3 ∧
    (ImageAsset.LoadWebP c1FailEnv sampleAsset).channelCount_ = 4 ∧
    (ImageAsset.LoadWebP c1FailEnv sampleAsset).channelCount_ ≠ sampleAsset.channelCount_ ∧
    (ImageAsset.LoadWebP c1FailEnv sampleAsset).buffer_ = sampleAsset.buffer_ := by
  refine ⟨?_, rfl, rfl, rfl, ?_, ?_, rfl⟩ <;> decide

theorem c1_witness :
    ¬ webpSucceeds c1FailEnv ∧
      (ImageAsset.LoadWebP c1FailEnv sampleAsset).buffer_ = sampleAsset.buffer_ :=
  ⟨by decide, c1_failing_load_preserves_buffer.1 c1FailEnv sampleAsset (by decide)⟩

/-! ### Clip on a loaded asset -/

/-- Shape of `Clip` when the buffer is loaded and the range checks pass. -/
theorem clip_loaded_ok (a : ImageAsset) (f : PixBuf) (x y w h : Int)
    (hbuf : a.buffer_.buf = some f)
    (hok : ¬(a.height_ - y - h < 0 ∨ a.height_ - y - h > a.height_ ∨
      a.height_ - y < 0 ∨ a.height_ - y > a.height_ ∨
      x < 0 ∨ x > a.width_ ∨ x + w < 0 ∨ x + w > a.width_)) :
    ImageAsset.Clip a x y w h =
      { a with
        errorHandler_ := a.errorHandler_.Clear,
        width_ := w, height_ := h,
        buffer_ :=
          { ImageAsset.AllocateBuffer (sizeT (w * h * a.channelCount_)) with
            buf := (ImageAsset.AllocateBuffer (sizeT (w * h * a.channelCount_))).buf.map
              fun nb =>
                { nb with
                  byte := foldRange h.toNat (fun d iy =>
                    splice d (w * a.channelCount_ * (iy : Int)).toNat f.byte
                      (a.width_ * a.channelCount_ * ((iy : Int) + (a.height_ - y - h)) +
                        x * a.channelCount_).toNat
                      (sizeT (w * a.channelCount_))) nb.byte } } } := by
  unfold ImageAsset.Clip ImageAsset.clearErr
  dsimp only
  rw [hbuf]
  dsimp only
  rw [if_neg hok]

/-- Shape of `Clip` when the buffer is loaded and a range check fails. -/
theorem clip_loaded_err (a : ImageAsset) (f : PixBuf) (x y w h : Int)
    (hbuf : a.buffer_.buf = some f)
    (hbad : a.height_ - y - h < 0 ∨ a.height_ - y - h > a.height_ ∨
      a.height_ - y < 0 ∨ a.height_ - y > a.height_ ∨
      x < 0 ∨ x > a.width_ ∨ x + w < 0 ∨ x + w > a.width_) :
    ImageAsset.Clip a x y w h =
      { a with errorHandler_ :=
          (a.errorHandler_.Clear).SetError ERROR_STR_IMAGE_SIZE_OVERFLOW } := by
  unfold ImageAsset.Clip ImageAsset.clearErr ImageAsset.setErr
  dsimp only
  rw [hbuf]
  dsimp only
  rw [if_pos hbad]

/-- C2 (amended): on a loaded, well-formed asset, a `Clip(x, y, w, h)` call
whose eight range checks pass and whose requested width and height are both
nonnegative yields metadata (w, h, unchanged channel count), a clear error,
a buffer of exactly w times h times channelCount bytes, and destination row
iy equal to source row iy + (H - y - h) restricted to columns starting at x;
an out-of-range call sets the size-overflow error and leaves buffer, width,
height and channel count unchanged.  The nonnegativity of w and h must be
assumed: the claim's range conditions alone also admit negative extents
(see the counterexample). -/
theorem c2_clip_range_semantics :
    (∀ (a : ImageAsset) (f : PixBuf) (x y w h : Int),
      a.buffer_.buf = some f → AssetInv a → 0 ≤ w → 0 ≤ h →
      0 ≤ a.height_ - y - h → a.height_ - y - h ≤ a.height_ →
      0 ≤ a.height_ - y → a.height_ - y ≤ a.height_ →
      0 ≤ x → x ≤ a.width_ → 0 ≤ x + w → x + w ≤ a.width_ →
      (ImageAsset.Clip a x y w h).width_ = w ∧
      (ImageAsset.Clip a x y w h).height_ = h ∧
      (ImageAsset.Clip a x y w h).channelCount_ = a.channelCount_ ∧
      (ImageAsset.Clip a x y w h).errorHandler_.msg = "" ∧
      bufSize (ImageAsset.Clip a x y w h) = (w * h * a.channelCount_).toNat ∧
      (∀ iy j, iy < h.toNat → j < (w * a.channelCount_).toNat →
        readByte (ImageAsset.Clip a x y w h) ((w * a.channelCount_).toNat * iy + j) =
          f.byte ((a.width_ * a.channelCount_).toNat *
              (iy + (a.height_ - y - h).toNat) +
            (x * a.channelCount_).toNat + j))) ∧
    (∀ (a : ImageAsset) (f : PixBuf) (x y w h : Int),
      a.buffer_.buf = some f →
      (a.height_ - y - h < 0 ∨ a.height_ - y - h > a.height_ ∨
        a.height_ - y < 0 ∨ a.height_ - y > a.height_ ∨
        x < 0 ∨ x > a.width_ ∨ x + w < 0 ∨ x + w > a.width_) →
      (ImageAsset.Clip a x y w h).errorHandler_.msg = ERROR_STR_IMAGE_SIZE_OVERFLOW ∧
      (ImageAsset.Clip a x y w h).buffer_ = a.buffer_ ∧
      (ImageAsset.Clip a x y w h).width_ = a.width_ ∧
      (ImageAsset.Clip a x y w h).height_ = a.height_ ∧
      (ImageAsset.Clip a x y w h).channelCount_ = a.channelCount_) := by
  constructor
  · intro a f x y w h hbuf hinv hw0 hh0 hsl0 hslH hel0 helH hx0 hxW hxw0 hxwW
    obtain ⟨hW0, hH0, hcc0, hcap31⟩ := hinv
    have hok : ¬(a.height_ - y - h < 0 ∨ a.height_ - y - h > a.height_ ∨
        a.height_ - y < 0 ∨ a.height_ - y > a.height_ ∨
        x < 0 ∨ x > a.width_ ∨ x + w < 0 ∨ x + w > a.width_) := by omega
    have hclip := clip_loaded_ok a f x y w h hbuf hok
    have hwW : w ≤ a.width_ := by omega
    have hhH : h ≤ a.height_ := by omega
    have hprodle : w * h * a.channelCount_ ≤ a.width_ * a.height_ * a.channelCount_ :=
      mul_le_mul_of_nonneg_right (mul_le_mul hwW hhH hh0 hW0) hcc0
    have hprod0 : 0 ≤ w * h * a.channelCount_ :=
      mul_nonneg (mul_nonneg hw0 hh0) hcc0
    have hszeq : sizeT (w * h * a.channelCount_) = (w * h * a.channelCount_).toNat :=
      sizeT_eq hprod0 (by omega)
    refine ⟨by rw [hclip], by rw [hclip], by rw [hclip], by rw [hclip]; rfl, ?_, ?_⟩
    · rw [hclip]
      unfold bufSize ImageAsset.AllocateBuffer
      rw [hszeq]
      by_cases h0 : (w * h * a.channelCount_).toNat = 0
      · rw [if_pos h0]
        simp [h0]
      · rw [if_neg h0]
        rfl
    · intro iy j hiy hj
      have hs0 : (w * h * a.channelCount_).toNat ≠ 0 := by
        have h2 : w * h * a.channelCount_ = w * a.channelCount_ * h := by ring
        rw [h2, toNat_mul_nonneg (mul_nonneg hw0 hcc0) hh0]
        intro hc
        rcases Nat.mul_eq_zero.mp hc with hc | hc <;> omega
      have hbufeq : (ImageAsset.Clip a x y w h).buffer_.buf =
          some ⟨(w * h * a.channelCount_).toNat,
            foldRange h.toNat (fun d r =>
              splice d (w * a.channelCount_ * (r : Int)).toNat f.byte
                (a.width_ * a.channelCount_ * ((r : Int) + (a.height_ - y - h)) +
                  x * a.channelCount_).toNat
                (sizeT (w * a.channelCount_))) (fun _ => 0)⟩ := by
        rw [hclip]
        show (ImageAsset.AllocateBuffer (sizeT (w * h * a.channelCount_))).buf.map _ = _
        rw [hszeq]
        unfold ImageAsset.AllocateBuffer
        rw [if_neg hs0]
        rfl
      have hH1 : 1 ≤ a.height_ := by omega
      have hLw : sizeT (w * a.channelCount_) = (w * a.channelCount_).toNat := by
        apply sizeT_eq (mul_nonneg hw0 hcc0)
        have b1 : w * a.channelCount_ ≤ a.width_ * a.channelCount_ :=
          mul_le_mul_of_nonneg_right hwW hcc0
        have b2 : a.width_ * a.channelCount_ ≤ a.width_ * a.channelCount_ * a.height_ :=
          le_mul_of_one_le_right (mul_nonneg hW0 hcc0) hH1
        have b3 : a.width_ * a.channelCount_ * a.height_ =
            a.width_ * a.height_ * a.channelCount_ := by ring
        omega
      have hread : readByte (ImageAsset.Clip a x y w h)
          ((w * a.channelCount_).toNat * iy + j) =
          foldRange h.toNat (fun d r =>
            splice d (w * a.channelCount_ * (r : Int)).toNat f.byte
              (a.width_ * a.channelCount_ * ((r : Int) + (a.height_ - y - h)) +
                x * a.channelCount_).toNat
              (sizeT (w * a.channelCount_))) (fun _ => 0)
            ((w * a.channelCount_).toNat * iy + j) := by
        unfold readByte
        rw [hbufeq]
      rw [hread]
      have hcongr : foldRange h.toNat (fun d r =>
            splice d (w * a.channelCount_ * (r : Int)).toNat f.byte
              (a.width_ * a.channelCount_ * ((r : Int) + (a.height_ - y - h)) +
                x * a.channelCount_).toNat
              (sizeT (w * a.channelCount_))) (fun _ => 0) =
          foldRange h.toNat (fun d r =>
            splice d ((w * a.channelCount_).toNat * r) f.byte
              ((a.width_ * a.channelCount_).toNat * (r + (a.height_ - y - h).toNat) +
                (x * a.channelCount_).toNat)
              ((w * a.channelCount_).toNat)) (fun _ => 0) := by
        apply foldRange_congr
        intro g k hk
        have e1 : (w * a.channelCount_ * (k : Int)).toNat =
            (w * a.channelCount_).toNat * k := by
          rw [toNat_mul_nonneg (mul_nonneg hw0 hcc0) (Int.natCast_nonneg k),
            Int.toNat_natCast]
        have e3 : ((k : Int) + (a.height_ - y - h)).toNat =
            k + (a.height_ - y - h).toNat := by omega
        have e2 : (a.width_ * a.channelCount_ * ((k : Int) + (a.height_ - y - h)) +
            x * a.channelCount_).toNat =
            (a.width_ * a.channelCount_).toNat * (k + (a.height_ - y - h).toNat) +
              (x * a.channelCount_).toNat := by
          rw [Int.toNat_add
              (mul_nonneg (mul_nonneg hW0 hcc0) (by omega))
              (mul_nonneg hx0 hcc0),
            toNat_mul_nonneg (mul_nonneg hW0 hcc0) (by omega), e3]
        rw [e1, e2, hLw]
      rw [hcongr]
      exact rowCopy_read f.byte (fun _ => 0)
        (fun r => (a.width_ * a.channelCount_).toNat *
            (r + (a.height_ - y - h).toNat) + (x * a.channelCount_).toNat)
        hiy hj
  · intro a f x y w h hbuf hbad
    rw [clip_loaded_err a f x y w h hbuf hbad]
    exact ⟨rfl, rfl, rfl, rfl, rfl⟩

/-- C2 counterexample: on a loaded 1 by 1 RGB asset the call
`Clip(0, 1, 1, -1)` satisfies all eight range conditions of the claim
(both line bounds and both pixel bounds land inside [0, extent]), yet the
resulting asset has height -1 and a buffer of 2 to the 64 minus 3 bytes —
the negative size reaches `size_t` by wraparound — rather than the claimed
rows-by-columns extraction, which would be empty. -/
theorem c2_counterexample_negative_height :
    (0 ≤ tinyAsset.height_ - 1 - (-1) ∧
      tinyAsset.height_ - 1 - (-1) ≤ tinyAsset.height_ ∧
      0 ≤ tinyAsset.height_ - 1 ∧ tinyAsset.height_ - 1 ≤ tinyAsset.height_ ∧
      0 ≤ (0 : Int) ∧ (0 : Int) ≤ tinyAsset.width_ ∧
      0 ≤ (0 : Int) + 1 ∧ (0 : Int) + 1 ≤ tinyAsset.width_) ∧
    (ImageAsset.Clip tinyAsset 0 1 1 (-1)).height_ = -1 ∧
    (ImageAsset.Clip tinyAsset 0 1 1 (-1)).errorHandler_.msg = "" ∧
    bufSize (ImageAsset.Clip tinyAsset 0 1 1 (-1)) = 2 ^ 64 - 3 ∧
    ((1 : Int) * (-1) * tinyAsset.channelCount_).toNat = 0 := by
  refine ⟨by decide, ?_, ?_, ?_, by decide⟩ <;> decide

theorem c2_witness :
    (ImageAsset.Clip sampleAsset 0 0 1 1).width_ = 1 ∧
    (ImageAsset.Clip sampleAsset 0 0 1 1).errorHandler_.msg = "" ∧
    bufSize (ImageAsset.Clip sampleAsset 0 0 1 1) = 3 ∧
    readByte (ImageAsset.Clip sampleAsset 0 0 1 1) 1 = 7 := by
  have h := c2_clip_range_semantics.1 sampleAsset ⟨12, fun j => j % 256⟩ 0 0 1 1 rfl
    (by decide) (by decide) (by decide) (by decide) (by decide) (by decide)
    (by decide) (by decide) (by decide) (by decide) (by decide)
  have h9 := h.2.2.2.2.2 0 1 (by decide) (by decide)
  exact ⟨h.1, h.2.2.2.1, h.2.2.2.2.1, h9⟩

/-- C8: `Clone` on a loaded, well-formed asset leaves the original untouched
and produces, through the raw-pixel load path, a second asset with the same
width, height and channel count, a clear error channel, a freshly allocated
self-owned buffer (source tag `Self`, regardless of whether the original was
decoder-owned), the same byte length, and byte-for-byte equal contents; the
two assets share no state, so mutating one cannot affect the other. -/
theorem c8_clone_fresh_copy (a : ImageAsset) (f : PixBuf)
    (hbuf : a.buffer_.buf = some f) (hinv : AssetInv a)
    (hsize : f.size = (a.width_ * a.height_ * a.channelCount_).toNat)
    (hpos : 0 < f.size) :
    (ImageAsset.Clone a).1 = a ∧
    (ImageAsset.Clone a).2.width_ = a.width_ ∧
    (ImageAsset.Clone a).2.height_ = a.height_ ∧
    (ImageAsset.Clone a).2.channelCount_ = a.channelCount_ ∧
    (ImageAsset.Clone a).2.errorHandler_.msg = "" ∧
    (ImageAsset.Clone a).2.buffer_.source = BufSource.Self ∧
    bufSize (ImageAsset.Clone a).2 = bufSize a ∧
    (∀ j, j < bufSize a → readByte (ImageAsset.Clone a).2 j = readByte a j) := by
  obtain ⟨hW0, hH0, hcc0, hcap31⟩ := hinv
  have hs : sizeT (a.width_ * a.height_ * a.channelCount_) = f.size := by
    rw [hsize]
    exact sizeT_eq (mul_nonneg (mul_nonneg hW0 hH0) hcc0) (by omega)
  have hshape : (ImageAsset.Clone a).2 =
      { buffer_ := ⟨some ⟨f.size, splice (fun _ => 0) 0 (readByte a) 0 f.size⟩,
          BufSource.Self⟩,
        width_ := a.width_, height_ := a.height_, channelCount_ := a.channelCount_,
        errorHandler_ := ⟨"", [ErrEvent.clear]⟩ } := by
    unfold ImageAsset.Clone ImageAsset.LoadPixels ImageAsset.clearErr
      ImageAsset.AllocateBuffer ImageAsset.init
    dsimp only
    rw [hs, if_neg (Nat.pos_iff_ne_zero.mp hpos)]
    rfl
  have hbsa : bufSize a = f.size := by
    unfold bufSize
    rw [hbuf]
  refine ⟨rfl, by rw [hshape], by rw [hshape], by rw [hshape], by rw [hshape],
    by rw [hshape], ?_, ?_⟩
  · rw [hshape, hbsa]
    rfl
  · intro j hj
    rw [hbsa] at hj
    rw [hshape]
    show splice (fun _ => 0) 0 (readByte a) 0 f.size j = readByte a j
    unfold splice
    rw [if_pos ⟨by omega, by omega⟩]
    congr 1
    omega

theorem c8_witness :
    (ImageAsset.Clone sampleAsset).1 = sampleAsset ∧
    (ImageAsset.Clone sampleAsset).2.width_ = 2 ∧
    bufSize (ImageAsset.Clone sampleAsset).2 = 12 ∧
    readByte (ImageAsset.Clone sampleAsset).2 5 = 5 := by
  have h := c8_clone_fresh_copy sampleAsset ⟨12, fun j => j % 256⟩ rfl
    (by decide) (by decide) (by decide)
  refine ⟨h.1, h.2.1, ?_, ?_⟩
  · rw [h.2.2.2.2.2.2.1]
    rfl
  · have h5 := h.2.2.2.2.2.2.2 5 (by decide)
    rw [h5]
    rfl

/-! ### Resize on a loaded asset -/

/-- Reading the result of `Resize` on a loaded 3- or 4-channel asset goes
through the nearest-neighbor scaler applied to the source bytes. -/
theorem resize_loaded_read (a : ImageAsset) (f : PixBuf) (width height : Int)
    (hbuf : a.buffer_.buf = some f)
    (hcc : a.channelCount_ = 3 ∨ a.channelCount_ = 4)
    (h0 : 0 ≤ width * height * a.channelCount_)
    (h64 : width * height * a.channelCount_ < 2 ^ 64)
    (hpos : (width * height * a.channelCount_).toNat ≠ 0) (j : Nat) :
    readByte (ImageAsset.Resize a width height) j =
      ScaleImage a.channelCount_.toNat f.byte (fun _ => 0) (u32 a.width_)
        (u32 a.height_) (u32 width) (u32 height) j := by
  have hsz : sizeT (width * height * a.channelCount_) =
      (width * height * a.channelCount_).toNat := sizeT_eq h0 h64
  rcases hcc with hc | hc
  · have hshape : (ImageAsset.Resize a width height).buffer_.buf =
        some ⟨(width * height * a.channelCount_).toNat,
          ScaleImage 3 f.byte (fun _ => 0) (u32 a.width_) (u32 a.height_)
            (u32 width) (u32 height)⟩ := by
      unfold ImageAsset.Resize ImageAsset.clearErr
      dsimp only
      rw [hbuf]
      dsimp only
      rw [if_pos hc]
      unfold ImageAsset.AllocateBuffer
      rw [hsz, if_neg hpos]
      rfl
    unfold readByte
    rw [hshape, hc]
    rfl
  · have hshape : (ImageAsset.Resize a width height).buffer_.buf =
        some ⟨(width * height * a.channelCount_).toNat,
          ScaleImage 4 f.byte (fun _ => 0) (u32 a.width_) (u32 a.height_)
            (u32 width) (u32 height)⟩ := by
      unfold ImageAsset.Resize ImageAsset.clearErr
      dsimp only
      rw [hbuf]
      dsimp only
      rw [if_neg (by rw [hc]; decide), if_pos hc]
      unfold ImageAsset.AllocateBuffer
      rw [hsz, if_neg hpos]
      rfl
    unfold readByte
    rw [hshape, hc]
    rfl

/-- C5 (amended): on a loaded 3- or 4-channel asset whose extents satisfy the
stated 32-bit caps, each destination pixel (ix, iy) of `Resize` receives the
channel bytes of the source pixel whose coordinates are the BINARY32 products
trunc(ix * (srcW / destW)) and trunc(iy * (srcH / destH)) — the scale ratios
and products being computed in single-precision float — which differs from
the claimed exact floor(ix * srcW / destW) on some inputs (see the
counterexample). -/
theorem c5_resize_nearest (a : ImageAsset) (f : PixBuf) (width height : Int)
    (hbuf : a.buffer_.buf = some f)
    (hcc : a.channelCount_ = 3 ∨ a.channelCount_ = 4)
    (hW0 : 0 < a.width_) (hH0 : 0 < a.height_)
    (hw0 : 0 < width) (hh0 : 0 < height)
    (hW32 : a.width_ < 2 ^ 32) (hH32 : a.height_ < 2 ^ 32)
    (hw32 : width < 2 ^ 32) (hh32 : height < 2 ^ 32)
    (hcapS : (a.width_ + 1) * (a.height_ + 1) * a.channelCount_ ≤ 2 ^ 31)
    (hcapD : width * height * a.channelCount_ < 2 ^ 31)
    {ix iy i : Nat} (hix : ix < width.toNat) (hiy : iy < height.toNat)
    (hi : i < a.channelCount_.toNat) :
    readByte (ImageAsset.Resize a width height)
        ((width.toNat * iy + ix) * a.channelCount_.toNat + i) =
      f.byte ((a.width_.toNat * nnIdx iy a.height_.toNat height.toNat +
          nnIdx ix a.width_.toNat width.toNat) * a.channelCount_.toNat + i) := by
  have hccpos : 0 < a.channelCount_ := by rcases hcc with h | h <;> omega
  have hprod0 : 0 ≤ width * height * a.channelCount_ :=
    mul_nonneg (mul_nonneg (by omega) (by omega)) (by omega)
  have hD : (width * height * a.channelCount_).toNat =
      width.toNat * height.toNat * a.channelCount_.toNat := by
    rw [toNat_mul_nonneg (mul_nonneg (by omega) (by omega)) (by omega),
      toNat_mul_nonneg (by omega) (by omega)]
  have hpos : (width * height * a.channelCount_).toNat ≠ 0 := by
    rw [hD]
    intro hcon
    rcases Nat.mul_eq_zero.mp hcon with hcon | hcon
    · rcases Nat.mul_eq_zero.mp hcon with hcon | hcon <;> omega
    · omega
  have hSe : ((a.width_ + 1) * (a.height_ + 1) * a.channelCount_).toNat =
      (a.width_.toNat + 1) * (a.height_.toNat + 1) * a.channelCount_.toNat := by
    rw [toNat_mul_nonneg (mul_nonneg (by omega) (by omega)) (by omega),
      toNat_mul_nonneg (by omega) (by omega)]
    have e1 : (a.width_ + 1).toNat = a.width_.toNat + 1 := by omega
    have e2 : (a.height_ + 1).toNat = a.height_.toNat + 1 := by omega
    rw [e1, e2]
  have hcapS' : (a.width_.toNat + 1) * (a.height_.toNat + 1) *
      a.channelCount_.toNat ≤ 2 ^ 31 := by
    rw [← hSe]
    omega
  have hcapD' : width.toNat * height.toNat * a.channelCount_.toNat < 2 ^ 31 := by
    rw [← hD]
    omega
  rw [resize_loaded_read a f width height hbuf hcc hprod0 (by omega) hpos,
    u32_eq (by omega) hW32, u32_eq (by omega) hH32, u32_eq (by omega) hw32,
    u32_eq (by omega) hh32]
  exact ScaleImage_read a.channelCount_.toNat f.byte (fun _ => 0)
    a.width_.toNat a.height_.toNat width.toNat height.toNat
    (by omega) (by omega) (by omega) (by omega) (by omega) (by omega)
    hcapS' hcapD' hix hiy hi

/-- A loaded 62 by 1 RGB asset whose pixel p has all channels equal to p. -/
def c5Asset : ImageAsset :=
  ⟨⟨some ⟨186, fun j => j / 3⟩, BufSource.Self⟩, 62, 1, 3, ⟨"", []⟩⟩

/-- C5 counterexample: shrinking the 62 by 1 ramp image to 14 by 1 gives
destination pixel 7 the value 30, while the claimed exact-floor source index
is floor(7 times 62 / 14) = 31 and source pixel 31 holds the value 31: the
single-precision ratio 62/14 rounds just below the rational value, so the
truncated product drops to 30. -/
theorem c5_counterexample_float_index :
    readByte (ImageAsset.Resize c5Asset 14 1) ((14 * 0 + 7) * 3 + 0) = 30 ∧
    (7 * 62) / 14 = 31 ∧ nnIdx 7 62 14 = 30 ∧
    readByte c5Asset (31 * 3) = 31 := by decide

theorem c5_witness :
    readByte (ImageAsset.Resize sampleAsset 1 1) 0 = 0 := by
  have h := @c5_resize_nearest sampleAsset ⟨12, fun j => j % 256⟩ 1 1 rfl
    (Or.inl rfl) (by decide) (by decide) (by decide) (by decide) (by decide)
    (by decide) (by decide) (by decide) (by decide) (by decide)
    0 0 0 (by decide) (by decide) (by decide)
  exact h

/-- C7 (amended): on a loaded 3- or 4-channel asset whose width and height
are at most 2 to the 24 (so that every coordinate and the scale ratio 1 are
exactly representable in binary32) and whose padded size respects the 32-bit
allocation cap, `Resize(W, H)` at the original dimensions reproduces every
byte of the pixel buffer.  The dimension cap must be assumed: above 2 to the
24 the float32 pixel coordinates collapse odd values and the identity fails
(see the counterexample). -/
theorem c7_resize_identity (a : ImageAsset) (f : PixBuf)
    (hbuf : a.buffer_.buf = some f)
    (hcc : a.channelCount_ = 3 ∨ a.channelCount_ = 4)
    (hW0 : 0 < a.width_) (hH0 : 0 < a.height_)
    (hW24 : a.width_ ≤ 2 ^ 24) (hH24 : a.height_ ≤ 2 ^ 24)
    (hcapS : (a.width_ + 1) * (a.height_ + 1) * a.channelCount_ ≤ 2 ^ 31)
    (j : Nat) (hj : j < (a.width_ * a.height_ * a.channelCount_).toNat) :
    readByte (ImageAsset.Resize a a.width_ a.height_) j = f.byte j := by
  have hccpos : 0 < a.channelCount_ := by rcases hcc with h | h <;> omega
  have hD : (a.width_ * a.height_ * a.channelCount_).toNat =
      a.width_.toNat * a.height_.toNat * a.channelCount_.toNat := by
    rw [toNat_mul_nonneg (mul_nonneg (by omega) (by omega)) (by omega),
      toNat_mul_nonneg (by omega) (by omega)]
  have hSe : ((a.width_ + 1) * (a.height_ + 1) * a.channelCount_).toNat =
      (a.width_.toNat + 1) * (a.height_.toNat + 1) * a.channelCount_.toNat := by
    rw [toNat_mul_nonneg (mul_nonneg (by omega) (by omega)) (by omega),
      toNat_mul_nonneg (by omega) (by omega)]
    have e1 : (a.width_ + 1).toNat = a.width_.toNat + 1 := by omega
    have e2 : (a.height_ + 1).toNat = a.height_.toNat + 1 := by omega
    rw [e1, e2]
  have hcapS' : (a.width_.toNat + 1) * (a.height_.toNat + 1) *
      a.channelCount_.toNat ≤ 2 ^ 31 := by
    rw [← hSe]
    omega
  have hccn : 0 < a.channelCount_.toNat := by omega
  have hexp : (a.width_.toNat + 1) * (a.height_.toNat + 1) * a.channelCount_.toNat =
      a.width_.toNat * a.height_.toNat * a.channelCount_.toNat +
        (a.width_.toNat * a.channelCount_.toNat +
          a.height_.toNat * a.channelCount_.toNat + a.channelCount_.toNat) := by
    ring
  have hcapD' : a.width_.toNat * a.height_.toNat * a.channelCount_.toNat < 2 ^ 31 := by
    omega
  have hpos : (a.width_ * a.height_ * a.channelCount_).toNat ≠ 0 := by omega
  have hge : 0 ≤ a.width_ * a.height_ * a.channelCount_ :=
    mul_nonneg (mul_nonneg (by omega) (by omega)) (by omega)
  have hcap31 : a.width_ * a.height_ * a.channelCount_ < 2 ^ 31 := by omega
  rw [resize_loaded_read a f a.width_ a.height_ hbuf hcc hge (by omega) hpos,
    u32_eq (by omega) (by omega), u32_eq (by omega) (by omega)]
  have hjlt : j < a.width_.toNat * a.height_.toNat * a.channelCount_.toNat := by
    rw [← hD]
    exact hj
  have hi : j % a.channelCount_.toNat < a.channelCount_.toNat := Nat.mod_lt _ hccn
  have hWn : 0 < a.width_.toNat := by omega
  have hHn : 0 < a.height_.toNat := by omega
  have hplt : j / a.channelCount_.toNat < a.width_.toNat * a.height_.toNat := by
    apply Nat.div_lt_of_lt_mul
    calc j < a.width_.toNat * a.height_.toNat * a.channelCount_.toNat := hjlt
      _ = a.channelCount_.toNat * (a.width_.toNat * a.height_.toNat) := by ring
  have hix : j / a.channelCount_.toNat % a.width_.toNat < a.width_.toNat :=
    Nat.mod_lt _ hWn
  have hiy : j / a.channelCount_.toNat / a.width_.toNat < a.height_.toNat :=
    Nat.div_lt_of_lt_mul hplt
  have hdecomp : (a.width_.toNat * (j / a.channelCount_.toNat / a.width_.toNat) +
      j / a.channelCount_.toNat % a.width_.toNat) * a.channelCount_.toNat +
      j % a.channelCount_.toNat = j := by
    rw [Nat.div_add_mod (j / a.channelCount_.toNat) a.width_.toNat,
      Nat.mul_comm (j / a.channelCount_.toNat) a.channelCount_.toNat,
      Nat.div_add_mod]
  rw [← hdecomp]
  rw [ScaleImage_read a.channelCount_.toNat f.byte (fun _ => 0) a.width_.toNat
    a.height_.toNat a.width_.toNat a.height_.toNat (by omega) (by omega) (by omega)
    (by omega) (by omega) (by omega) hcapS' hcapD' hix hiy hi]
  rw [nnIdx_self hHn (by omega) hiy, nnIdx_self hWn (by omega) hix]

/-- A loaded ramp asset 2 to the 24 plus 2 pixels wide and one pixel high,
pixel p holding the value p mod 256 in all three channels. -/
def c7Asset : ImageAsset :=
  ⟨⟨some ⟨3 * (2 ^ 24 + 2), fun j => j / 3 % 256⟩, BufSource.Self⟩,
    2 ^ 24 + 2, 1, 3, ⟨"", []⟩⟩

/-- C7 counterexample: resizing the (2 to the 24 plus 2) by 1 ramp image to
its own dimensions changes the buffer: destination pixel 2 to the 24 plus 1
reads source pixel 2 to the 24 (value 0), not itself (value 1), because
binary32 rounds the odd coordinate 16777217 down to the even 16777216. -/
theorem c7_counterexample_large_width :
    readByte (ImageAsset.Resize c7Asset (2 ^ 24 + 2) 1) (3 * (2 ^ 24 + 1)) = 0 ∧
    readByte c7Asset (3 * (2 ^ 24 + 1)) = 1 ∧
    3 * (2 ^ 24 + 1) < bufSize c7Asset := by
  refine ⟨?_, by decide, by decide⟩
  have hread := resize_loaded_read c7Asset ⟨3 * (2 ^ 24 + 2), fun j => j / 3 % 256⟩
    (2 ^ 24 + 2) 1 rfl (Or.inl rfl) (by decide) (by decide) (by decide)
    (3 * (2 ^ 24 + 1))
  rw [hread]
  dsimp only [c7Asset]
  have h3 := @ScaleImage_read 3 (fun j => j / 3 % 256) (fun _ => 0) (2 ^ 24 + 2) 1
    (2 ^ 24 + 2) 1 (by decide) (by decide) (by decide) (by decide) (by decide)
    (by decide) (by decide) (by decide) (2 ^ 24 + 1) 0 0 (by decide) (by decide)
    (by decide)
  rw [show u32 (2 ^ 24 + 2 : Int) = 2 ^ 24 + 2 from by decide,
    show u32 (1 : Int) = 1 from by decide,
    show ((3 : Int).toNat) = 3 from by decide,
    show (3 * (2 ^ 24 + 1) : Nat) = ((2 ^ 24 + 2) * 0 + (2 ^ 24 + 1)) * 3 + 0 from
      by decide]
  rw [h3]
  decide

theorem c7_witness :
    readByte (ImageAsset.Resize sampleAsset 2 2) 5 = 5 := by
  have h := c7_resize_identity sampleAsset ⟨12, fun j => j % 256⟩ rfl (Or.inl rfl)
    (by decide) (by decide) (by decide) (by decide) (by decide) 5 (by decide)
  exact h
